import Mathlib

/-!
Verification model of the ROAM patch core declared in
`src/rts/Map/SMF/ROAM/Patch.h` (Spring engine).

Only the header is available: it fixes the `TriTreeNode` structure and its
constructor, the leaf/branch queries with their assertions, the
`CTriNodePool` interface (`OutOfNodes`, `Allocate`, `Reset`) and
`Patch::GetTriCount`.  The bodies of the recursive algorithms
(`Patch::Split`, `Patch::RecursTessellate`, `Patch::Tessellate`,
`Patch::RecursComputeVariance`, `Patch::RecursRender`,
`CTriNodePool::Allocate`) live in `Patch.cpp`, which is not part of the
sources; those are modelled from the specification and carry a
`Modelled from the spec:` doc comment.

Modelling choices (following the spec's design notes, section 9):
pointers become `Option Nat` indices into an arena of nodes addressed by a
stable integer id; id 0 is `Patch::baseLeft`, id 1 is `Patch::baseRight`,
and pool slot `i` of the active `CTriNodePool` is id `2 + i`.  The arena is
a total function `Nat → TriTreeNode`; ids at or beyond `2 + poolSize` are
never handed out by `Allocate`.  Recursion depth of `Split` is bounded by an
explicit fuel argument (a termination artifact; the geometric depth bound of
the original guarantees the fuel is never exhausted on the states the
theorems quantify over).  Heights are rational numbers.
-/

namespace Roam

/-- TriTreeNode of Patch.h lines 35-55: the triangle-tree node, two child
links and three neighbor links, each possibly null. -/
structure TriTreeNode where
  LeftChild     : Option Nat
  RightChild    : Option Nat
  BaseNeighbor  : Option Nat
  LeftNeighbor  : Option Nat
  RightNeighbor : Option Nat
deriving Repr, DecidableEq

/-- The default constructor of `TriTreeNode` (Patch.h lines 37-43): all five
links start out null. -/
def TriTreeNode.ctor : TriTreeNode :=
  { LeftChild := none, RightChild := none, BaseNeighbor := none,
    LeftNeighbor := none, RightNeighbor := none }

instance : Inhabited TriTreeNode := ⟨TriTreeNode.ctor⟩

/-- Return value of `TriTreeNode::IsLeaf` (Patch.h line 46):
`return (LeftChild == nullptr)`. -/
def TriTreeNode.IsLeaf (n : TriTreeNode) : Bool := n.LeftChild.isNone

/-- The condition asserted by `TriTreeNode::IsLeaf` (Patch.h line 46):
`assert(RightChild == nullptr)`. -/
def TriTreeNode.IsLeafAssertCond (n : TriTreeNode) : Bool := n.RightChild.isNone

/-- Return value of `TriTreeNode::IsBranch` (Patch.h line 47):
`return (RightChild != nullptr)`. -/
def TriTreeNode.IsBranch (n : TriTreeNode) : Bool := n.RightChild.isSome

/-- The condition asserted by `TriTreeNode::IsBranch` (Patch.h line 47):
`assert(LeftChild != nullptr)`. -/
def TriTreeNode.IsBranchAssertCond (n : TriTreeNode) : Bool := n.LeftChild.isSome

/-- The never-half-split property of a single node (spec section 3):
a node is a Leaf (both children null) or a Branch (both non-null). -/
def TriTreeNode.childrenConsistent (n : TriTreeNode) : Prop :=
  n.LeftChild = none ↔ n.RightChild = none

instance (n : TriTreeNode) : Decidable n.childrenConsistent := by
  unfold TriTreeNode.childrenConsistent; infer_instance

/-- State of a patch during one tessellation pass: the node arena together
with the data of the active `CTriNodePool` (Patch.h lines 62-82): the
backing store size `poolSize` (= `pool.size()`) and the next free index
`nextTriNodeIdx`.  Arena ids 0 and 1 are the two root nodes `baseLeft` and
`baseRight`; pool slot `i` is arena id `2 + i`. -/
structure RoamState where
  node : Nat → TriTreeNode
  nextTriNodeIdx : Nat
  poolSize : Nat

/-- `CTriNodePool::OutOfNodes` (Patch.h line 75):
`return (nextTriNodeIdx >= pool.size())`. -/
def RoamState.OutOfNodes (s : RoamState) : Bool :=
  s.nextTriNodeIdx ≥ s.poolSize

/-- Replace the node stored at arena id `i`. -/
def setNode (s : RoamState) (i : Nat) (v : TriTreeNode) : RoamState :=
  { s with node := Function.update s.node i v }

/-- Modelled from the spec: `CTriNodePool::Allocate` (declared Patch.h line
73, body in the missing Patch.cpp).  Claims the next two pooled nodes as a
fresh sibling pair, clearing their fields, and returns their arena ids
through the two reference parameters; fails once the pool is consumed
(`OutOfNodes`, Patch.h line 75), leaving the caller's two output references
untouched and having no side effect on the pool. -/
def RoamState.Allocate (s : RoamState) (left rght : Option Nat) :
    RoamState × Option Nat × Option Nat × Bool :=
  if s.OutOfNodes then (s, left, rght, false)
  else
    ({ setNode (setNode s (2 + s.nextTriNodeIdx) TriTreeNode.ctor)
          (3 + s.nextTriNodeIdx) TriTreeNode.ctor
        with nextTriNodeIdx := s.nextTriNodeIdx + 2 },
      some (2 + s.nextTriNodeIdx), some (3 + s.nextTriNodeIdx), true)

/-- Modelled from the spec: `CTriNodePool::Reset` (declared Patch.h line 72,
body in the missing Patch.cpp).  Rewinds the free index to zero. -/
def RoamState.ResetPool (s : RoamState) : RoamState :=
  { s with nextTriNodeIdx := 0 }

/-- Iterate `k` pair-allocations, with null output slots fed in. -/
def iterAlloc (s : RoamState) : Nat → RoamState
  | 0 => s
  | k + 1 => ((iterAlloc s k).Allocate none none).1

/-- Modelled from the spec: `Patch::Reset` together with the per-frame pool
reset (spec sections 3 and 4.3, step 1).  Both roots become unsplit leaves;
the two root triangles are the two halves of the tile's square and share
their base (hypotenuse) edge, so each root's base neighbor is the other
root; all remaining links are null (single-tile model, no adjacent
patches); the pool index is rewound. -/
def initState (poolSize : Nat) : RoamState :=
  { node := fun i =>
      if i = 0 then { TriTreeNode.ctor with BaseNeighbor := some 1 }
      else if i = 1 then { TriTreeNode.ctor with BaseNeighbor := some 0 }
      else TriTreeNode.ctor,
    nextTriNodeIdx := 0,
    poolSize := poolSize }

/-- Wiring of the two freshly allocated children of node `ti` (spec section
4.3, step 4): each child's base neighbor is the other child (the internal
shared edge), the children's outward-facing neighbors are derived from the
parent's own left/right neighbors, and the links across the parent's base
edge stay null until the cross-link step resolves them; finally the parent
receives its two child links. -/
def wireChildren (s : RoamState) (ti li ri : Nat) : RoamState :=
  let tri := s.node ti
  let s3 := setNode s li
    { TriTreeNode.ctor with BaseNeighbor := some ri, LeftNeighbor := tri.LeftNeighbor }
  let s4 := setNode s3 ri
    { TriTreeNode.ctor with BaseNeighbor := some li, RightNeighbor := tri.RightNeighbor }
  setNode s4 ti { tri with LeftChild := some li, RightChild := some ri }

/-- Cross-linking of a mutually matched diamond (spec section 4.3, step 4):
each of the node's new children `li`, `ri` is linked to the corresponding
new child `br`, `bl` of the base neighbor, on both sides of the shared
edge. -/
def crossLink (s : RoamState) (li ri bl br : Nat) : RoamState :=
  let s6 := setNode s li { s.node li with RightNeighbor := some br }
  let s7 := setNode s6 br { s6.node br with LeftNeighbor := some li }
  let s8 := setNode s7 ri { s7.node ri with LeftNeighbor := some bl }
  setNode s8 bl { s8.node bl with RightNeighbor := some ri }

/-- Modelled from the spec: resolution of the base edge after a Leaf has
been given its two children (spec section 4.3, step 4): no base neighbor
means a tile-border split with the corresponding links left null; a
mutually matched base neighbor that is already a Branch is cross-linked
with the new children; a mutually matched base neighbor that is still a
Leaf is split as well (through `recur`), so the diamond splits together; an
asymmetric neighbor is left alone with the links null. -/
def splitRest (recur : RoamState → Nat → RoamState × Bool)
    (s5 : RoamState) (ti li ri : Nat) : RoamState × Bool :=
  match (s5.node ti).BaseNeighbor with
  | none => (s5, true)
  | some bi =>
    if (s5.node bi).BaseNeighbor = some ti then
      if (s5.node bi).IsBranch then
        match (s5.node bi).LeftChild, (s5.node bi).RightChild with
        | some bl, some br => (crossLink s5 li ri bl br, true)
        | _, _ => (s5, true)
      else recur s5 bi
    else (s5, true)

/-- Modelled from the spec: the allocate-and-wire part of `Patch::Split`
(spec section 4.3, step 4), shared by the different entry paths of `Split`.
Allocates a sibling pair (aborting with failure on exhaustion, the caller's
child slots untouched), wires the children, and resolves the base edge
(`splitRest`). -/
def splitLeafStep (recur : RoamState → Nat → RoamState × Bool)
    (s : RoamState) (ti : Nat) : RoamState × Bool :=
  match s.Allocate ((s.node ti).LeftChild) ((s.node ti).RightChild) with
  | (s2, some li, some ri, true) => splitRest recur (wireChildren s2 ti li ri) ti li ri
  | (s2, _, _, _) => (s2, false)

/-- Modelled from the spec: `Patch::Split` (declared Patch.h line 138, body
in the missing Patch.cpp), spec section 4.3, step 4.  An already-Branch
node succeeds immediately (idempotent).  For a Leaf, if the base neighbor
exists and is not mutually matched (its own base neighbor is not this
node), the base neighbor is recursively split first; exhaustion propagates
up the recursion as failure.  Then the sibling pair is allocated and wired
(`splitLeafStep`).  The first argument is recursion fuel (termination
artifact). -/
def Split : Nat → RoamState → Nat → RoamState × Bool
  | 0, s, _ => (s, false)
  | fuel + 1, s, ti =>
    if (s.node ti).IsBranch then (s, true)
    else
      match (s.node ti).BaseNeighbor with
      | some bi =>
        if (s.node bi).BaseNeighbor = some ti then
          splitLeafStep (Split fuel) s ti
        else
          match Split fuel s bi with
          | (s1, true) => splitLeafStep (Split fuel) s1 ti
          | (s1, false) => (s1, false)
      | none => splitLeafStep (Split fuel) s ti

/-- Fuel passed to `Split` by the tessellation driver: any bound larger
than the longest possible chain of forced diamond splits. -/
def splitFuel (s : RoamState) : Nat := s.poolSize + 3

/-- Run a sequence of `Split` calls, keeping the final state. -/
def SplitSeq (fuel : Nat) : RoamState → List Nat → RoamState
  | s, [] => s
  | s, n :: rest => SplitSeq fuel (Split fuel s n).1 rest

/-- Decides that every call in a sequence of `Split` calls targets an
already-existing (allocated) node and returns success. -/
def SeqOK (fuel : Nat) : RoamState → List Nat → Bool
  | _, [] => true
  | s, n :: rest =>
    decide (n < 2 + s.nextTriNodeIdx) && (Split fuel s n).2 &&
      SeqOK fuel (Split fuel s n).1 rest

/-- Integer grid coordinates of a triangle's three corners, as carried down
the recursions of Patch.cpp (`left`, `rght`, `apex` of type `int2`). -/
structure TriGeom where
  left : ℤ × ℤ
  rght : ℤ × ℤ
  apex : ℤ × ℤ
deriving Repr, DecidableEq

/-- Midpoint of the base (hypotenuse) edge, with integer division as in the
original's coordinate halving. -/
def midpt (g : TriGeom) : ℤ × ℤ :=
  ((g.left.1 + g.rght.1) / 2, (g.left.2 + g.rght.2) / 2)

/-- Geometry of the left child triangle: (apex, left, mid). -/
def childL (g : TriGeom) : TriGeom :=
  { left := g.apex, rght := g.left, apex := midpt g }

/-- Geometry of the right child triangle: (rght, apex, mid). -/
def childR (g : TriGeom) : TriGeom :=
  { left := g.rght, rght := g.apex, apex := midpt g }

/-- Height deviation of one triangle (spec section 4.2): the absolute
deviation of the true heightfield from the plane interpolated linearly
between the two base-edge corners, sampled at the base-edge midpoint. -/
def deviation (h : ℤ × ℤ → ℚ) (g : TriGeom) : ℚ :=
  |h (midpt g) - (h g.left + h g.rght) / 2|

/-- Modelled from the spec: the value computed by
`Patch::RecursComputeVariance` (declared Patch.h lines 142-148, body in the
missing Patch.cpp) for a triangle with `d` levels of subdivision below it:
`variance(node) = max(heightDeviationAtMidpoint, variance(leftChild),
variance(rightChild))`, and at the maximum depth the deviation alone,
computed directly without recursion (spec section 4.2). -/
def variance (h : ℤ × ℤ → ℚ) : Nat → TriGeom → ℚ
  | 0, g => deviation h g
  | d + 1, g =>
    max (deviation h g)
      (max (variance h d (childL g)) (variance h d (childR g)))

/-- Depth of heap node `k` in the complete binary tree rooted at node 1
(children of `k` are `2*k` and `2*k+1`), with explicit fuel; `heapDepth f k`
is the intended depth whenever `k ≤ f`. -/
def heapDepth : Nat → Nat → Nat
  | 0, _ => 0
  | _ + 1, 0 => 0
  | _ + 1, 1 => 0
  | f + 1, k + 2 => heapDepth f ((k + 2) / 2) + 1

/-- Depth of heap node `k` (root node 1 has depth 0). -/
def depthOf (k : Nat) : Nat := heapDepth k k

/-- Geometry of heap node `k` relative to the root geometry `g0`, with
explicit fuel; `nodeGeomF g0 f k` is the intended geometry whenever
`k ≤ f`. -/
def nodeGeomF (g0 : TriGeom) : Nat → Nat → TriGeom
  | 0, _ => g0
  | _ + 1, 0 => g0
  | _ + 1, 1 => g0
  | f + 1, k + 2 =>
    if (k + 2) % 2 = 0 then childL (nodeGeomF g0 f ((k + 2) / 2))
    else childR (nodeGeomF g0 f ((k + 2) / 2))

/-- Geometry of heap node `k` relative to the root geometry `g0`. -/
def nodeGeom (g0 : TriGeom) (k : Nat) : TriGeom := nodeGeomF g0 k k

/-- Modelled from the spec: the variance tree built by
`Patch::ComputeVariance` / `Patch::RecursComputeVariance` (bodies in the
missing Patch.cpp), as the map sending heap node index `k` to the value
stored at `varianceLeft[k]` (respectively `varianceRight[k]`): the variance
of node `k`'s triangle with the remaining `D - depth(k)` levels of
subdivision below it, `D` being the configured maximum depth. -/
def storedVariance (h : ℤ × ℤ → ℚ) (g0 : TriGeom) (D k : Nat) : ℚ :=
  variance h (D - depthOf k) (nodeGeom g0 k)

/-- LOD parameters of the patch (Patch.h lines 179-180). -/
structure LodParams where
  varianceMaxLimit : ℚ
  camDistLODFactor : ℚ

/-- Squared planar distance from a grid point to the camera position. -/
def dist2 (m : ℤ × ℤ) (cam : ℚ × ℚ) : ℚ :=
  ((m.1 : ℚ) - cam.1) ^ 2 + ((m.2 : ℚ) - cam.2) ^ 2

/-- Modelled from the spec: the split decision of `Patch::RecursTessellate`
(spec section 4.3, step 2; the exact numeric formula is a tunable policy,
spec section 9, required to be monotone in variance and in camera
proximity).  The decision is "split" when the distance-attenuated variance
exceeds the configured maximum-acceptable-variance limit; triangles whose
footprint lies entirely outside the view radius are forced to stay
coarse. -/
def wantSplit (P : LodParams) (viewRadius : ℚ) (cam : ℚ × ℚ)
    (v : ℚ) (m : ℤ × ℤ) : Bool :=
  decide (dist2 m cam ≤ viewRadius * viewRadius) &&
    decide (v * P.camDistLODFactor * viewRadius >
      P.varianceMaxLimit * (1 + dist2 m cam))

/-- Modelled from the spec: `Patch::RecursTessellate` (declared Patch.h
line 139, body in the missing Patch.cpp), spec section 4.3.  For the
triangle of node `i` (variance looked up by the heap index `k` of the
node's tree position), computes the split decision; if split is warranted,
invokes `Split` and recurses into the children while they exist, bounded by
the remaining depth `d`. -/
def RecursTessellate (P : LodParams) (viewRadius : ℚ) (cam : ℚ × ℚ)
    (varr : Nat → ℚ) :
    Nat → RoamState → Nat → TriGeom → Nat → RoamState × Bool
  | 0, s, _, _, _ => (s, true)
  | d + 1, s, i, g, k =>
    if wantSplit P viewRadius cam (varr k) (midpt g) then
      match Split (splitFuel s) s i with
      | (s1, ok) =>
        match (s1.node i).LeftChild, (s1.node i).RightChild with
        | some lc, some rc =>
          match RecursTessellate P viewRadius cam varr d s1 lc (childL g) (2 * k) with
          | (s2, ok2) =>
            match RecursTessellate P viewRadius cam varr d s2 rc (childR g) (2 * k + 1) with
            | (s3, ok3) => (s3, ok && ok2 && ok3)
        | _, _ => (s1, ok)
    else (s, true)

/-- Modelled from the spec: `Patch::Tessellate` (declared Patch.h line 115,
body in the missing Patch.cpp), spec section 4.3: resets both roots to
leaves with a freshly reset pool of the given capacity, then recursively
refines each half against its variance tree; the returned flag is the
tessellation-complete signal (false once a split failed, spec section
7). -/
def Tessellate (P : LodParams) (viewRadius : ℚ) (cam : ℚ × ℚ)
    (h : ℤ × ℤ → ℚ) (gL gR : TriGeom) (D poolSize : Nat) :
    RoamState × Bool :=
  let s0 := initState poolSize
  match RecursTessellate P viewRadius cam (storedVariance h gL D) D s0 0 gL 1 with
  | (s1, ok1) =>
    match RecursTessellate P viewRadius cam (storedVariance h gR D) D s1 1 gR 1 with
    | (s2, ok2) => (s2, ok1 && ok2)

/-- Modelled from the spec: `Patch::RecursRender` (declared Patch.h line
140, body in the missing Patch.cpp), spec section 4.4: deterministic
depth-first traversal, left child before right child, emitting at every
Leaf the triangle's three corner grid positions (left, rght, apex), in this
fixed winding order, appended to the index list. -/
def RecursRender (s : RoamState) : Nat → Nat → TriGeom → List (ℤ × ℤ)
  | 0, _, _ => []
  | fuel + 1, i, g =>
    match (s.node i).LeftChild, (s.node i).RightChild with
    | some lc, some rc =>
      RecursRender s fuel lc (childL g) ++ RecursRender s fuel rc (childR g)
    | _, _ => [g.left, g.rght, g.apex]

/-- Number of leaves visited by the same bounded traversal as
`RecursRender`. -/
def countLeaves (s : RoamState) : Nat → Nat → Nat
  | 0, _ => 0
  | fuel + 1, i =>
    match (s.node i).LeftChild, (s.node i).RightChild with
    | some lc, some rc => countLeaves s fuel lc + countLeaves s fuel rc
    | _, _ => 1

/-- Modelled from the spec: `Patch::GenerateIndices` (declared Patch.h line
118, body in the missing Patch.cpp): renders both root trees in order,
appending to the tile's index list.  The traversal fuel `poolSize + 2`
exceeds any possible tree depth. -/
def GenerateIndices (s : RoamState) (gL gR : TriGeom) : List (ℤ × ℤ) :=
  RecursRender s (s.poolSize + 2) 0 gL ++ RecursRender s (s.poolSize + 2) 1 gR

/-- `Patch::GetTriCount` (Patch.h line 111): `return (indices.size() / 3)`. -/
def GetTriCount (indices : List (ℤ × ℤ)) : Nat := indices.length / 3

/-- Reachability from a root along child links. -/
inductive Reachable (s : RoamState) : Nat → Nat → Prop
  | refl (i : Nat) : Reachable s i i
  | left {i j k : Nat} : Reachable s i j → (s.node j).LeftChild = some k → Reachable s i k
  | right {i j k : Nat} : Reachable s i j → (s.node j).RightChild = some k → Reachable s i k

/-! ### Invariants of the triangle-tree state -/

/-- A link points only to an arena id that has been handed out (the two
roots, or a consumed pool slot). -/
def inBound (s : RoamState) (o : Option Nat) : Prop :=
  ∀ j, o = some j → j < 2 + s.nextTriNodeIdx

/-- Never-half-split (spec sections 3 and 8): every node of the arena is a
Leaf (both children null) or a Branch (both children non-null). -/
def HSF (s : RoamState) : Prop :=
  ∀ i, (s.node i).LeftChild = none ↔ (s.node i).RightChild = none

/-- Base-neighbor links are symmetric: sibling pairs created together point
at each other across their shared base edge. -/
def BaseSym (s : RoamState) : Prop :=
  ∀ i j, (s.node i).BaseNeighbor = some j → (s.node j).BaseNeighbor = some i

/-- No adjacency or child link dangles into an unallocated node. -/
def LinksOK (s : RoamState) : Prop :=
  ∀ i, inBound s (s.node i).LeftChild ∧ inBound s (s.node i).RightChild ∧
    inBound s (s.node i).BaseNeighbor ∧ inBound s (s.node i).LeftNeighbor ∧
    inBound s (s.node i).RightNeighbor

/-- No-crack (spec section 8): both sides of a shared base edge are
subdivided to the same depth. -/
def NoCrack (s : RoamState) : Prop :=
  ∀ i j, (s.node i).BaseNeighbor = some j →
    ((s.node i).LeftChild = none ↔ (s.node j).LeftChild = none)

/-- The structural invariants that hold after every `Split` call, even a
failed one. -/
def GoodCore (s : RoamState) : Prop := HSF s ∧ BaseSym s ∧ LinksOK s

/-- The full invariant, including no-crack. -/
def GoodState (s : RoamState) : Prop := GoodCore s ∧ NoCrack s

/-- No-crack away from one distinguished node. -/
def NoCrackExcept (s : RoamState) (x : Nat) : Prop :=
  ∀ i j, (s.node i).BaseNeighbor = some j → i ≠ x → j ≠ x →
    ((s.node i).LeftChild = none ↔ (s.node j).LeftChild = none)

/-- The intermediate state in which the second half of a diamond is about
to be split: node `n` is still a Leaf, its base neighbor is already a
Branch, and no-crack holds everywhere else. -/
def Pending (s : RoamState) (n : Nat) : Prop :=
  GoodCore s ∧ (s.node n).LeftChild = none ∧
    (∃ p, (s.node n).BaseNeighbor = some p ∧ (s.node p).LeftChild ≠ none) ∧
    NoCrackExcept s n

/-- The successor state of a successful pair allocation. -/
def allocState (s : RoamState) : RoamState :=
  { setNode (setNode s (2 + s.nextTriNodeIdx) TriTreeNode.ctor)
      (3 + s.nextTriNodeIdx) TriTreeNode.ctor
    with nextTriNodeIdx := s.nextTriNodeIdx + 2 }

/-- The state after a Leaf `ti` has successfully allocated and wired its
two children (which are the next two pool slots). -/
def wireAll (s : RoamState) (ti : Nat) : RoamState :=
  wireChildren (allocState s) ti (2 + s.nextTriNodeIdx) (3 + s.nextTriNodeIdx)

/-- Two states agree on every node's children and base link (they may
differ on left/right neighbor links). -/
def sameCore (t u : RoamState) : Prop :=
  ∀ i, (t.node i).LeftChild = (u.node i).LeftChild ∧
    (t.node i).RightChild = (u.node i).RightChild ∧
    (t.node i).BaseNeighbor = (u.node i).BaseNeighbor

/-! ### Concrete demonstration data for the witnesses -/

/-- A concrete state whose node 0 is a Branch. -/
def branchDemo : RoamState :=
  { node := fun i => if i = 0 then ⟨some 2, some 3, some 1, none, none⟩
      else TriTreeNode.ctor,
    nextTriNodeIdx := 2, poolSize := 2 }

/-- A pool of capacity 5 with its free index at 3. -/
def poolDemo : RoamState :=
  { node := fun _ => TriTreeNode.ctor, nextTriNodeIdx := 3, poolSize := 5 }

/-- A consumed pool of capacity 5 (free index beyond the backing store). -/
def poolDemoFull : RoamState :=
  { node := fun _ => TriTreeNode.ctor, nextTriNodeIdx := 7, poolSize := 5 }

/-- A concrete heightmap for the C5 witness. -/
def rampHeight (p : ℤ × ℤ) : ℚ := (p.1 * p.1 : ℤ)

/-- A concrete root triangle for the C5 witness. -/
def demoGeom : TriGeom := { left := (0, 0), rght := (4, 0), apex := (2, 2) }

/-- A flat heightmap of uniform height 5. -/
def flatHeight (_p : ℤ × ℤ) : ℚ := 5

/-- A heightmap with a single extreme spike at the point (1, 1). -/
def spikeHeight (p : ℤ × ℤ) : ℚ := if p = (1, 1) then 100 else 0

/-- Left root triangle of a 2-by-2 demonstration tile. -/
def gLDemo : TriGeom := { left := (0, 2), rght := (2, 0), apex := (0, 0) }

/-- Right root triangle of a 2-by-2 demonstration tile. -/
def gRDemo : TriGeom := { left := (2, 0), rght := (0, 2), apex := (2, 2) }

/-- Concrete LOD parameters. -/
def demoParams : LodParams := { varianceMaxLimit := 1, camDistLODFactor := 1 }

/-! ### State-update lemmas -/

theorem setNode_node_self (s : RoamState) (i : Nat) (v : TriTreeNode) :
    (setNode s i v).node i = v := by
  simp [setNode]

theorem setNode_node_ne {i j : Nat} (h : j ≠ i) (s : RoamState) (v : TriTreeNode) :
    (setNode s i v).node j = s.node j := by
  simp [setNode, Function.update_noteq h]

theorem setNode_idx (s : RoamState) (i : Nat) (v : TriTreeNode) :
    (setNode s i v).nextTriNodeIdx = s.nextTriNodeIdx := rfl

theorem setNode_poolSize (s : RoamState) (i : Nat) (v : TriTreeNode) :
    (setNode s i v).poolSize = s.poolSize := rfl

theorem Allocate_out {s : RoamState} (h : s.OutOfNodes = true) (l r : Option Nat) :
    s.Allocate l r = (s, l, r, false) := by
  simp [RoamState.Allocate, h]

theorem Allocate_ok {s : RoamState} (h : s.OutOfNodes = false) (l r : Option Nat) :
    s.Allocate l r =
      (allocState s, some (2 + s.nextTriNodeIdx), some (3 + s.nextTriNodeIdx), true) := by
  simp [RoamState.Allocate, h, allocState]

theorem allocState_idx (s : RoamState) :
    (allocState s).nextTriNodeIdx = s.nextTriNodeIdx + 2 := rfl

theorem allocState_poolSize (s : RoamState) : (allocState s).poolSize = s.poolSize := rfl

theorem allocState_node_li (s : RoamState) :
    (allocState s).node (2 + s.nextTriNodeIdx) = TriTreeNode.ctor := by
  show (Function.update (Function.update s.node _ _) _ _) _ = _
  rw [Function.update_noteq (by omega), Function.update_same]

theorem allocState_node_ri (s : RoamState) :
    (allocState s).node (3 + s.nextTriNodeIdx) = TriTreeNode.ctor := by
  show (Function.update (Function.update s.node _ _) _ _) _ = _
  rw [Function.update_same]

theorem allocState_node_other {s : RoamState} {j : Nat}
    (h1 : j ≠ 2 + s.nextTriNodeIdx) (h2 : j ≠ 3 + s.nextTriNodeIdx) :
    (allocState s).node j = s.node j := by
  show (Function.update (Function.update s.node _ _) _ _) _ = _
  rw [Function.update_noteq h2, Function.update_noteq h1]

theorem wire_node_ti (s : RoamState) (ti li ri : Nat) :
    (wireChildren s ti li ri).node ti =
      { s.node ti with LeftChild := some li, RightChild := some ri } := by
  simp [wireChildren, setNode_node_self]

theorem wire_node_li {ti li ri : Nat} (h1 : li ≠ ti) (h2 : li ≠ ri) (s : RoamState) :
    (wireChildren s ti li ri).node li =
      { TriTreeNode.ctor with BaseNeighbor := some ri, LeftNeighbor := (s.node ti).LeftNeighbor } := by
  simp [wireChildren, setNode_node_ne h1, setNode_node_ne h2, setNode_node_self]

theorem wire_node_ri {ti li ri : Nat} (h1 : ri ≠ ti) (s : RoamState) :
    (wireChildren s ti li ri).node ri =
      { TriTreeNode.ctor with BaseNeighbor := some li, RightNeighbor := (s.node ti).RightNeighbor } := by
  simp [wireChildren, setNode_node_ne h1, setNode_node_self]

theorem wire_node_other {ti li ri j : Nat}
    (h1 : j ≠ ti) (h2 : j ≠ li) (h3 : j ≠ ri) (s : RoamState) :
    (wireChildren s ti li ri).node j = s.node j := by
  simp [wireChildren, setNode_node_ne h1, setNode_node_ne h2, setNode_node_ne h3]

theorem wire_idx (s : RoamState) (ti li ri : Nat) :
    (wireChildren s ti li ri).nextTriNodeIdx = s.nextTriNodeIdx := rfl

theorem wire_poolSize (s : RoamState) (ti li ri : Nat) :
    (wireChildren s ti li ri).poolSize = s.poolSize := rfl

theorem sameCore_refl (t : RoamState) : sameCore t t := fun _ => ⟨rfl, rfl, rfl⟩

theorem sameCore_trans {t u w : RoamState} (h1 : sameCore t u) (h2 : sameCore u w) :
    sameCore t w := fun i =>
  ⟨(h1 i).1.trans (h2 i).1, (h1 i).2.1.trans (h2 i).2.1, (h1 i).2.2.trans (h2 i).2.2⟩

theorem sameCore_setNode {s : RoamState} {x : Nat} {v : TriTreeNode}
    (hL : v.LeftChild = (s.node x).LeftChild)
    (hR : v.RightChild = (s.node x).RightChild)
    (hB : v.BaseNeighbor = (s.node x).BaseNeighbor) :
    sameCore (setNode s x v) s := by
  intro i
  by_cases h : i = x
  · subst h; rw [setNode_node_self]; exact ⟨hL, hR, hB⟩
  · rw [setNode_node_ne h]; exact ⟨rfl, rfl, rfl⟩

/-- A cross-link step never changes any node's children or base link. -/
theorem crossLink_sameCore (s : RoamState) (li ri bl br : Nat) :
    sameCore (crossLink s li ri bl br) s := by
  unfold crossLink
  exact sameCore_trans (sameCore_setNode rfl rfl rfl)
    (sameCore_trans (sameCore_setNode rfl rfl rfl)
      (sameCore_trans (sameCore_setNode rfl rfl rfl)
        (sameCore_setNode rfl rfl rfl)))

theorem crossLink_idx (s : RoamState) (li ri bl br : Nat) :
    (crossLink s li ri bl br).nextTriNodeIdx = s.nextTriNodeIdx := rfl

theorem crossLink_poolSize (s : RoamState) (li ri bl br : Nat) :
    (crossLink s li ri bl br).poolSize = s.poolSize := rfl

theorem HSF_of_sameCore {t u : RoamState} (h : sameCore t u) (hu : HSF u) : HSF t := by
  intro i; rw [(h i).1, (h i).2.1]; exact hu i

theorem BaseSym_of_sameCore {t u : RoamState} (h : sameCore t u) (hu : BaseSym u) :
    BaseSym t := by
  intro i j hij
  rw [(h i).2.2] at hij
  rw [(h j).2.2]
  exact hu i j hij

theorem NoCrack_of_sameCore {t u : RoamState} (h : sameCore t u) (hu : NoCrack u) :
    NoCrack t := by
  intro i j hij
  rw [(h i).2.2] at hij
  rw [(h i).1, (h j).1]
  exact hu i j hij

/-- A `setNode` whose new value only carries in-bound links preserves
`LinksOK`. -/
theorem LinksOK_setNode {s : RoamState} {x : Nat} {v : TriTreeNode}
    (hs : LinksOK s)
    (hv : inBound s v.LeftChild ∧ inBound s v.RightChild ∧ inBound s v.BaseNeighbor ∧
      inBound s v.LeftNeighbor ∧ inBound s v.RightNeighbor) :
    LinksOK (setNode s x v) := by
  intro i
  by_cases h : i = x
  · subst h; rw [setNode_node_self]; exact hv
  · rw [setNode_node_ne h]; exact hs i

/-- Overwriting one node with a copy whose `RightNeighbor` points at an
allocated id preserves `LinksOK`. -/
theorem LinksOK_setRightNeighbor {s : RoamState} {x t : Nat}
    (hs : LinksOK s) (ht : t < 2 + s.nextTriNodeIdx) :
    LinksOK (setNode s x { s.node x with RightNeighbor := some t }) := by
  apply LinksOK_setNode hs
  exact ⟨(hs x).1, (hs x).2.1, (hs x).2.2.1, (hs x).2.2.2.1,
    fun j hj => by cases hj; exact ht⟩

/-- Overwriting one node with a copy whose `LeftNeighbor` points at an
allocated id preserves `LinksOK`. -/
theorem LinksOK_setLeftNeighbor {s : RoamState} {x t : Nat}
    (hs : LinksOK s) (ht : t < 2 + s.nextTriNodeIdx) :
    LinksOK (setNode s x { s.node x with LeftNeighbor := some t }) := by
  apply LinksOK_setNode hs
  exact ⟨(hs x).1, (hs x).2.1, (hs x).2.2.1,
    fun j hj => by cases hj; exact ht, (hs x).2.2.2.2⟩

theorem LinksOK_crossLink {s : RoamState} {li ri bl br : Nat}
    (hs : LinksOK s)
    (hli : li < 2 + s.nextTriNodeIdx) (hri : ri < 2 + s.nextTriNodeIdx)
    (hbl : bl < 2 + s.nextTriNodeIdx) (hbr : br < 2 + s.nextTriNodeIdx) :
    LinksOK (crossLink s li ri bl br) := by
  unfold crossLink
  have h6 := LinksOK_setRightNeighbor hs hbr (x := li)
  have h7 := LinksOK_setLeftNeighbor h6 (t := li) hli (x := br)
  have h8 := LinksOK_setLeftNeighbor h7 (t := bl) hbl (x := ri)
  exact LinksOK_setRightNeighbor h8 (t := ri) hri (x := bl)

/-! ### Pool behavior (claim C4) -/

theorem iterAlloc_idx (s : RoamState) :
    ∀ k, 2 * k ≤ s.poolSize →
      (iterAlloc s.ResetPool k).nextTriNodeIdx = 2 * k ∧
        (iterAlloc s.ResetPool k).poolSize = s.poolSize := by
  intro k
  induction k with
  | zero => intro _; simp [iterAlloc, RoamState.ResetPool]
  | succ k ih =>
    intro hk
    obtain ⟨hidx, hps⟩ := ih (by omega)
    have hout : (iterAlloc s.ResetPool k).OutOfNodes = false := by
      simp only [RoamState.OutOfNodes, hidx, hps, ge_iff_le, decide_eq_false_iff_not, not_le]
      omega
    have hstep : iterAlloc s.ResetPool (k + 1) = allocState (iterAlloc s.ResetPool k) := by
      show ((iterAlloc s.ResetPool k).Allocate none none).1 = _
      rw [Allocate_ok hout]
    rw [hstep, allocState_idx, allocState_poolSize, hidx, hps]
    exact ⟨by omega, rfl⟩

/-- C4: for a pool of capacity N, each of the first N/2 pair-allocations
after a Reset succeeds; a consumed pool (`OutOfNodes`) makes every further
`Allocate` call return failure with the caller's two output references
untouched and no side effect on the pool; and `Reset` rewinds the free
index to zero (after which the first bound applies again, so allocation
succeeds again up to capacity). -/
theorem allocate_bound_and_reset :
    (∀ (s : RoamState) (k : Nat), k < s.poolSize / 2 →
      ((iterAlloc s.ResetPool k).Allocate none none).2.2.2 = true)
    ∧ (∀ (s : RoamState) (l r : Option Nat), s.OutOfNodes = true →
      s.Allocate l r = (s, l, r, false))
    ∧ (∀ s : RoamState, s.ResetPool.nextTriNodeIdx = 0) := by
  refine ⟨?_, ?_, fun _ => rfl⟩
  · intro s k hk
    obtain ⟨hidx, hps⟩ := iterAlloc_idx s k (by omega)
    have hout : (iterAlloc s.ResetPool k).OutOfNodes = false := by
      simp only [RoamState.OutOfNodes, hidx, hps, ge_iff_le, decide_eq_false_iff_not, not_le]
      omega
    rw [Allocate_ok hout]
  · intro s l r h
    exact Allocate_out h l r

/-- Witness for C4: after resetting `poolDemo` the first pair-allocation
succeeds, the consumed pool rejects an `Allocate` touching neither the
output references nor itself, and Reset rewinds the index to zero. -/
theorem allocate_bound_and_reset_witness :
    ((0 : Nat) < poolDemo.poolSize / 2
      ∧ ((iterAlloc poolDemo.ResetPool 0).Allocate none none).2.2.2 = true)
    ∧ (poolDemoFull.OutOfNodes = true
      ∧ poolDemoFull.Allocate (some 4) none = (poolDemoFull, some 4, none, false))
    ∧ poolDemo.ResetPool.nextTriNodeIdx = 0 := by
  refine ⟨⟨by decide, allocate_bound_and_reset.1 poolDemo 0 (by decide)⟩,
    ⟨by decide, allocate_bound_and_reset.2.1 poolDemoFull (some 4) none (by decide)⟩,
    allocate_bound_and_reset.2.2 poolDemo⟩

/-! ### Leaf/branch queries and the fresh node (claims C9, C10) -/

/-- C9: the assertion inside `TriTreeNode::IsLeaf` (Patch.h line 46) is
`assert(RightChild == nullptr)`, which is violated by any Branch node even
though such a node satisfies the never-half-split invariant; dually, the
assertion inside `TriTreeNode::IsBranch` (`assert(LeftChild != nullptr)`)
is violated by any Leaf.  The return values themselves are correct under
the invariant.  This evaluates the code at the failing inputs: a Branch
node with children 2 and 3, and the freshly constructed Leaf. -/
theorem isLeaf_assert_fires_on_branch :
    (⟨some 2, some 3, none, none, none⟩ : TriTreeNode).childrenConsistent
    ∧ TriTreeNode.IsLeafAssertCond ⟨some 2, some 3, none, none, none⟩ = false
    ∧ TriTreeNode.IsLeaf ⟨some 2, some 3, none, none, none⟩ = false
    ∧ TriTreeNode.IsBranch ⟨some 2, some 3, none, none, none⟩ = true
    ∧ TriTreeNode.ctor.childrenConsistent
    ∧ TriTreeNode.IsBranchAssertCond TriTreeNode.ctor = false
    ∧ TriTreeNode.IsLeaf TriTreeNode.ctor = true := by
  decide

/-- C10: a default-constructed `TriTreeNode` (Patch.h lines 37-43) has all
five links null, hence is a Leaf with no neighbors and satisfies the
never-half-split invariant from birth. -/
theorem ctor_fresh_leaf :
    TriTreeNode.ctor.LeftChild = none ∧ TriTreeNode.ctor.RightChild = none
    ∧ TriTreeNode.ctor.BaseNeighbor = none ∧ TriTreeNode.ctor.LeftNeighbor = none
    ∧ TriTreeNode.ctor.RightNeighbor = none
    ∧ TriTreeNode.ctor.IsLeaf = true ∧ TriTreeNode.ctor.childrenConsistent := by
  decide

/-! ### Split idempotence (claim C6) -/

/-- C6: calling `Split` on a node that is already a Branch returns success
immediately and returns the state unchanged, so neither that node, nor its
subtree, nor any other node of the tree or the pool is mutated. -/
theorem split_idempotent_on_branch (fuel : Nat) (s : RoamState) (n : Nat)
    (h : (s.node n).IsBranch = true) : Split (fuel + 1) s n = (s, true) := by
  simp [Split, h]

/-- Witness for C6: splitting the already-Branch node 0 of `branchDemo`
succeeds and changes nothing. -/
theorem split_idempotent_on_branch_witness :
    (branchDemo.node 0).IsBranch = true ∧ Split (3 + 1) branchDemo 0 = (branchDemo, true) :=
  ⟨by decide, split_idempotent_on_branch 3 branchDemo 0 (by decide)⟩

/-! ### Variance tree (claim C5) -/

theorem heapDepth_succ (f k : Nat) :
    heapDepth (f + 1) (k + 2) = heapDepth f ((k + 2) / 2) + 1 := rfl

theorem heapDepth_stable : ∀ f g k, k ≤ f → k ≤ g → heapDepth f k = heapDepth g k := by
  intro f
  induction f with
  | zero =>
    intro g k hf _
    have hk : k = 0 := by omega
    subst hk
    cases g <;> rfl
  | succ f ih =>
    intro g k hf hg
    cases k with
    | zero => cases g <;> rfl
    | succ k0 =>
      cases k0 with
      | zero =>
        cases g with
        | zero => omega
        | succ g0 => rfl
      | succ k1 =>
        cases g with
        | zero => omega
        | succ g0 =>
          have h1 : (k1 + 2) / 2 ≤ f := by omega
          have h2 : (k1 + 2) / 2 ≤ g0 := by omega
          rw [heapDepth_succ f k1, heapDepth_succ g0 k1, ih g0 ((k1 + 2) / 2) h1 h2]

theorem depthOf_two_mul {k : Nat} (hk : 1 ≤ k) : depthOf (2 * k) = depthOf k + 1 := by
  obtain ⟨j, rfl⟩ : ∃ j, k = j + 1 := ⟨k - 1, by omega⟩
  have e : 2 * (j + 1) = 2 * j + 2 := by ring
  rw [depthOf, depthOf, e]
  have h1 : heapDepth (2 * j + 2) (2 * j + 2) = heapDepth (2 * j + 1) ((2 * j + 2) / 2) + 1 := rfl
  have h3 : (2 * j + 2) / 2 = j + 1 := by omega
  rw [h1, h3, heapDepth_stable (2 * j + 1) (j + 1) (j + 1) (by omega) (by omega)]

theorem depthOf_two_mul_add_one {k : Nat} (hk : 1 ≤ k) :
    depthOf (2 * k + 1) = depthOf k + 1 := by
  obtain ⟨j, rfl⟩ : ∃ j, k = j + 1 := ⟨k - 1, by omega⟩
  have e : 2 * (j + 1) + 1 = 2 * j + 3 := by ring
  rw [depthOf, depthOf, e]
  have h1 : heapDepth (2 * j + 3) (2 * j + 3) = heapDepth (2 * j + 2) ((2 * j + 3) / 2) + 1 := rfl
  have h3 : (2 * j + 3) / 2 = j + 1 := by omega
  rw [h1, h3, heapDepth_stable (2 * j + 2) (j + 1) (j + 1) (by omega) (by omega)]

theorem nodeGeomF_succ (g0 : TriGeom) (f k : Nat) :
    nodeGeomF g0 (f + 1) (k + 2) =
      if (k + 2) % 2 = 0 then childL (nodeGeomF g0 f ((k + 2) / 2))
      else childR (nodeGeomF g0 f ((k + 2) / 2)) := rfl

theorem nodeGeomF_stable (g0 : TriGeom) :
    ∀ f g k, k ≤ f → k ≤ g → nodeGeomF g0 f k = nodeGeomF g0 g k := by
  intro f
  induction f with
  | zero =>
    intro g k hf _
    have hk : k = 0 := by omega
    subst hk
    cases g <;> rfl
  | succ f ih =>
    intro g k hf hg
    cases k with
    | zero => cases g <;> rfl
    | succ k0 =>
      cases k0 with
      | zero =>
        cases g with
        | zero => omega
        | succ g1 => rfl
      | succ k1 =>
        cases g with
        | zero => omega
        | succ g1 =>
          have h1 : (k1 + 2) / 2 ≤ f := by omega
          have h2 : (k1 + 2) / 2 ≤ g1 := by omega
          rw [nodeGeomF_succ g0 f k1, nodeGeomF_succ g0 g1 k1,
            ih g1 ((k1 + 2) / 2) h1 h2]

theorem nodeGeom_two_mul (g0 : TriGeom) {k : Nat} (hk : 1 ≤ k) :
    nodeGeom g0 (2 * k) = childL (nodeGeom g0 k) := by
  obtain ⟨j, rfl⟩ : ∃ j, k = j + 1 := ⟨k - 1, by omega⟩
  have e : 2 * (j + 1) = 2 * j + 2 := by ring
  rw [nodeGeom, nodeGeom, e]
  have h1 : nodeGeomF g0 (2 * j + 2) (2 * j + 2) =
      if (2 * j + 2) % 2 = 0 then childL (nodeGeomF g0 (2 * j + 1) ((2 * j + 2) / 2))
      else childR (nodeGeomF g0 (2 * j + 1) ((2 * j + 2) / 2)) := rfl
  have h2 : (2 * j + 2) % 2 = 0 := by omega
  have h3 : (2 * j + 2) / 2 = j + 1 := by omega
  rw [h1, if_pos h2, h3,
    nodeGeomF_stable g0 (2 * j + 1) (j + 1) (j + 1) (by omega) (by omega)]

theorem nodeGeom_two_mul_add_one (g0 : TriGeom) {k : Nat} (hk : 1 ≤ k) :
    nodeGeom g0 (2 * k + 1) = childR (nodeGeom g0 k) := by
  obtain ⟨j, rfl⟩ : ∃ j, k = j + 1 := ⟨k - 1, by omega⟩
  have e : 2 * (j + 1) + 1 = 2 * j + 3 := by ring
  rw [nodeGeom, nodeGeom, e]
  have h1 : nodeGeomF g0 (2 * j + 3) (2 * j + 3) =
      if (2 * j + 3) % 2 = 0 then childL (nodeGeomF g0 (2 * j + 2) ((2 * j + 3) / 2))
      else childR (nodeGeomF g0 (2 * j + 2) ((2 * j + 3) / 2)) := rfl
  have h2 : ¬ (2 * j + 3) % 2 = 0 := by omega
  have h3 : (2 * j + 3) / 2 = j + 1 := by omega
  rw [h1, if_neg h2, h3,
    nodeGeomF_stable g0 (2 * j + 2) (j + 1) (j + 1) (by omega) (by omega)]

theorem variance_succ (h : ℤ × ℤ → ℚ) (d : Nat) (g : TriGeom) :
    variance h (d + 1) g =
      max (deviation h g)
        (max (variance h d (childL g)) (variance h d (childR g))) := rfl

/-- C5: for every node `k` at depth less than the maximum depth `D`, the
stored variance satisfies the recurrence `variance(node) =
max(heightDeviationAtMidpoint, variance(leftChild), variance(rightChild))`
over the heap-indexed children `2*k` and `2*k+1`; consequently each
child's stored variance is bounded by the parent's stored variance. -/
theorem variance_recurrence_and_monotone (h : ℤ × ℤ → ℚ) (g0 : TriGeom)
    (D k : Nat) (hk : 1 ≤ k) (hd : depthOf k + 1 ≤ D) :
    storedVariance h g0 D k =
      max (deviation h (nodeGeom g0 k))
        (max (storedVariance h g0 D (2 * k)) (storedVariance h g0 D (2 * k + 1)))
    ∧ storedVariance h g0 D (2 * k) ≤ storedVariance h g0 D k
    ∧ storedVariance h g0 D (2 * k + 1) ≤ storedVariance h g0 D k := by
  have main : storedVariance h g0 D k =
      max (deviation h (nodeGeom g0 k))
        (max (storedVariance h g0 D (2 * k)) (storedVariance h g0 D (2 * k + 1))) := by
    unfold storedVariance
    rw [depthOf_two_mul hk, depthOf_two_mul_add_one hk,
      nodeGeom_two_mul g0 hk, nodeGeom_two_mul_add_one g0 hk]
    have e3 : D - depthOf k = (D - (depthOf k + 1)) + 1 := by omega
    rw [e3]
    exact variance_succ h (D - (depthOf k + 1)) (nodeGeom g0 k)
  refine ⟨main, ?_, ?_⟩
  · rw [main]
    exact le_trans (le_max_left _ _) (le_max_right _ _)
  · rw [main]
    exact le_trans (le_max_right _ _) (le_max_right _ _)

/-- Witness for C5: the recurrence and the monotone bound, instantiated at
the root node of a depth-2 variance tree over a concrete quadratic
heightmap. -/
theorem variance_recurrence_and_monotone_witness :
    (1 ≤ 1 ∧ depthOf 1 + 1 ≤ 2)
    ∧ (storedVariance rampHeight demoGeom 2 1 =
        max (deviation rampHeight (nodeGeom demoGeom 1))
          (max (storedVariance rampHeight demoGeom 2 (2 * 1))
            (storedVariance rampHeight demoGeom 2 (2 * 1 + 1)))
      ∧ storedVariance rampHeight demoGeom 2 (2 * 1) ≤ storedVariance rampHeight demoGeom 2 1
      ∧ storedVariance rampHeight demoGeom 2 (2 * 1 + 1) ≤
          storedVariance rampHeight demoGeom 2 1) :=
  ⟨⟨by decide, by decide⟩,
    variance_recurrence_and_monotone rampHeight demoGeom 2 1 (by decide) (by decide)⟩

/-! ### Index generation (claim C8) -/

theorem renderLen (s : RoamState) :
    ∀ fuel i g, (RecursRender s fuel i g).length = 3 * countLeaves s fuel i := by
  intro fuel
  induction fuel with
  | zero => intro i g; simp [RecursRender, countLeaves]
  | succ fuel ih =>
    intro i g
    cases hL : (s.node i).LeftChild with
    | none => simp [RecursRender, countLeaves, hL]
    | some lc =>
      cases hR : (s.node i).RightChild with
      | none => simp [RecursRender, countLeaves, hL, hR]
      | some rc =>
        simp only [RecursRender, countLeaves, hL, hR, List.length_append, ih]
        ring

/-- C8: `RecursRender` is a deterministic depth-first traversal that visits
the left child before the right child, appends at every Leaf (and only at
Leaves) exactly the three corner entries (left, rght, apex) in this fixed
winding order, so the emitted index list has length three times the number
of leaves, and `GetTriCount` (`indices.size() / 3`, Patch.h line 111)
equals the leaf count — also for the full `GenerateIndices` output over
both roots. -/
theorem recursRender_three_per_leaf :
    (∀ (s : RoamState) (fuel i : Nat) (g : TriGeom),
      (s.node i).LeftChild = none →
        RecursRender s (fuel + 1) i g = [g.left, g.rght, g.apex])
    ∧ (∀ (s : RoamState) (fuel i : Nat) (g : TriGeom) (lc rc : Nat),
      (s.node i).LeftChild = some lc → (s.node i).RightChild = some rc →
        RecursRender s (fuel + 1) i g =
          RecursRender s fuel lc (childL g) ++ RecursRender s fuel rc (childR g))
    ∧ (∀ (s : RoamState) (fuel i : Nat) (g : TriGeom),
      (RecursRender s fuel i g).length = 3 * countLeaves s fuel i)
    ∧ (∀ (s : RoamState) (fuel i : Nat) (g : TriGeom),
      GetTriCount (RecursRender s fuel i g) = countLeaves s fuel i)
    ∧ (∀ (s : RoamState) (gL gR : TriGeom),
      GetTriCount (GenerateIndices s gL gR) =
        countLeaves s (s.poolSize + 2) 0 + countLeaves s (s.poolSize + 2) 1) := by
  refine ⟨?_, ?_, renderLen, ?_, ?_⟩
  · intro s fuel i g h
    simp [RecursRender, h]
  · intro s fuel i g lc rc h1 h2
    simp [RecursRender, h1, h2]
  · intro s fuel i g
    unfold GetTriCount
    rw [renderLen]
    exact Nat.mul_div_cancel_left _ (by norm_num)
  · intro s gL gR
    unfold GetTriCount GenerateIndices
    rw [List.length_append, renderLen, renderLen]
    omega

/-! ### Reduction lemmas for Split -/

theorem split_zero (s : RoamState) (ti : Nat) : Split 0 s ti = (s, false) := rfl

theorem split_eq_branch (fuel : Nat) (s : RoamState) (ti : Nat)
    (h : (s.node ti).IsBranch = true) : Split (fuel + 1) s ti = (s, true) := by
  simp [Split, h]

theorem split_eq_leaf_none (fuel : Nat) (s : RoamState) (ti : Nat)
    (h1 : (s.node ti).IsBranch = false) (h2 : (s.node ti).BaseNeighbor = none) :
    Split (fuel + 1) s ti = splitLeafStep (Split fuel) s ti := by
  simp [Split, h1, h2]

theorem split_eq_leaf_matched (fuel : Nat) (s : RoamState) (ti bi : Nat)
    (h1 : (s.node ti).IsBranch = false) (h2 : (s.node ti).BaseNeighbor = some bi)
    (h3 : (s.node bi).BaseNeighbor = some ti) :
    Split (fuel + 1) s ti = splitLeafStep (Split fuel) s ti := by
  simp [Split, h1, h2, h3]

theorem splitLeafStep_out (recur : RoamState → Nat → RoamState × Bool)
    (s : RoamState) (ti : Nat)
    (hL : (s.node ti).LeftChild = none) (hR : (s.node ti).RightChild = none)
    (hout : s.OutOfNodes = true) :
    splitLeafStep recur s ti = (s, false) := by
  unfold splitLeafStep
  rw [hL, hR, Allocate_out hout]

theorem splitLeafStep_ok (recur : RoamState → Nat → RoamState × Bool)
    (s : RoamState) (ti : Nat)
    (hL : (s.node ti).LeftChild = none) (hR : (s.node ti).RightChild = none)
    (hout : s.OutOfNodes = false) :
    splitLeafStep recur s ti =
      splitRest recur (wireAll s ti) ti (2 + s.nextTriNodeIdx) (3 + s.nextTriNodeIdx) := by
  unfold splitLeafStep wireAll
  rw [hL, hR, Allocate_ok hout]

theorem splitRest_none (recur : RoamState → Nat → RoamState × Bool)
    (s5 : RoamState) (ti li ri : Nat) (h : (s5.node ti).BaseNeighbor = none) :
    splitRest recur s5 ti li ri = (s5, true) := by
  simp [splitRest, h]

theorem splitRest_cross (recur : RoamState → Nat → RoamState × Bool)
    (s5 : RoamState) (ti li ri bi bl br : Nat)
    (hb : (s5.node ti).BaseNeighbor = some bi)
    (hm : (s5.node bi).BaseNeighbor = some ti)
    (hbl : (s5.node bi).LeftChild = some bl)
    (hbr : (s5.node bi).RightChild = some br) :
    splitRest recur s5 ti li ri = (crossLink s5 li ri bl br, true) := by
  have hbranch : (s5.node bi).IsBranch = true := by
    simp [TriTreeNode.IsBranch, hbr]
  simp [splitRest, hb, hm, hbranch, hbl, hbr]

theorem splitRest_partner (recur : RoamState → Nat → RoamState × Bool)
    (s5 : RoamState) (ti li ri bi : Nat)
    (hb : (s5.node ti).BaseNeighbor = some bi)
    (hm : (s5.node bi).BaseNeighbor = some ti)
    (hbranch : (s5.node bi).IsBranch = false) :
    splitRest recur s5 ti li ri = recur s5 bi := by
  simp [splitRest, hb, hm, hbranch]

/-! ### Characterization of the wired state -/

theorem wireAll_node_ti {s : RoamState} {ti : Nat} (hti : ti < 2 + s.nextTriNodeIdx) :
    (wireAll s ti).node ti = { s.node ti with LeftChild := some (2 + s.nextTriNodeIdx), RightChild := some (3 + s.nextTriNodeIdx) } := by
  unfold wireAll
  rw [wire_node_ti, allocState_node_other (by omega) (by omega)]

theorem wireAll_node_li {s : RoamState} {ti : Nat} (hti : ti < 2 + s.nextTriNodeIdx) :
    (wireAll s ti).node (2 + s.nextTriNodeIdx) = { TriTreeNode.ctor with BaseNeighbor := some (3 + s.nextTriNodeIdx), LeftNeighbor := (s.node ti).LeftNeighbor } := by
  unfold wireAll
  rw [wire_node_li (by omega) (by omega), allocState_node_other (by omega) (by omega)]

theorem wireAll_node_ri {s : RoamState} {ti : Nat} (hti : ti < 2 + s.nextTriNodeIdx) :
    (wireAll s ti).node (3 + s.nextTriNodeIdx) = { TriTreeNode.ctor with BaseNeighbor := some (2 + s.nextTriNodeIdx), RightNeighbor := (s.node ti).RightNeighbor } := by
  unfold wireAll
  rw [wire_node_ri (by omega), allocState_node_other (by omega) (by omega)]

theorem wireAll_node_other {s : RoamState} {ti j : Nat} (_hti : ti < 2 + s.nextTriNodeIdx)
    (hj1 : j ≠ ti) (hj2 : j ≠ 2 + s.nextTriNodeIdx) (hj3 : j ≠ 3 + s.nextTriNodeIdx) :
    (wireAll s ti).node j = s.node j := by
  unfold wireAll
  rw [wire_node_other hj1 hj2 hj3, allocState_node_other hj2 hj3]

theorem wireAll_idx (s : RoamState) (ti : Nat) :
    (wireAll s ti).nextTriNodeIdx = s.nextTriNodeIdx + 2 := rfl

theorem wireAll_poolSize (s : RoamState) (ti : Nat) :
    (wireAll s ti).poolSize = s.poolSize := rfl

theorem wireAll_ti_left {s : RoamState} {ti : Nat} (hti : ti < 2 + s.nextTriNodeIdx) :
    ((wireAll s ti).node ti).LeftChild = some (2 + s.nextTriNodeIdx) := by
  rw [wireAll_node_ti hti]

theorem wireAll_ti_right {s : RoamState} {ti : Nat} (hti : ti < 2 + s.nextTriNodeIdx) :
    ((wireAll s ti).node ti).RightChild = some (3 + s.nextTriNodeIdx) := by
  rw [wireAll_node_ti hti]

theorem wireAll_ti_base {s : RoamState} {ti : Nat} (hti : ti < 2 + s.nextTriNodeIdx) :
    ((wireAll s ti).node ti).BaseNeighbor = (s.node ti).BaseNeighbor := by
  rw [wireAll_node_ti hti]

theorem wireAll_ti_leftNb {s : RoamState} {ti : Nat} (hti : ti < 2 + s.nextTriNodeIdx) :
    ((wireAll s ti).node ti).LeftNeighbor = (s.node ti).LeftNeighbor := by
  rw [wireAll_node_ti hti]

theorem wireAll_ti_rightNb {s : RoamState} {ti : Nat} (hti : ti < 2 + s.nextTriNodeIdx) :
    ((wireAll s ti).node ti).RightNeighbor = (s.node ti).RightNeighbor := by
  rw [wireAll_node_ti hti]

theorem wireAll_li_left {s : RoamState} {ti : Nat} (hti : ti < 2 + s.nextTriNodeIdx) :
    ((wireAll s ti).node (2 + s.nextTriNodeIdx)).LeftChild = none := by
  rw [wireAll_node_li hti]
  rfl

theorem wireAll_li_right {s : RoamState} {ti : Nat} (hti : ti < 2 + s.nextTriNodeIdx) :
    ((wireAll s ti).node (2 + s.nextTriNodeIdx)).RightChild = none := by
  rw [wireAll_node_li hti]
  rfl

theorem wireAll_li_base {s : RoamState} {ti : Nat} (hti : ti < 2 + s.nextTriNodeIdx) :
    ((wireAll s ti).node (2 + s.nextTriNodeIdx)).BaseNeighbor = some (3 + s.nextTriNodeIdx) := by
  rw [wireAll_node_li hti]

theorem wireAll_li_leftNb {s : RoamState} {ti : Nat} (hti : ti < 2 + s.nextTriNodeIdx) :
    ((wireAll s ti).node (2 + s.nextTriNodeIdx)).LeftNeighbor = (s.node ti).LeftNeighbor := by
  rw [wireAll_node_li hti]

theorem wireAll_li_rightNb {s : RoamState} {ti : Nat} (hti : ti < 2 + s.nextTriNodeIdx) :
    ((wireAll s ti).node (2 + s.nextTriNodeIdx)).RightNeighbor = none := by
  rw [wireAll_node_li hti]
  rfl

theorem wireAll_ri_left {s : RoamState} {ti : Nat} (hti : ti < 2 + s.nextTriNodeIdx) :
    ((wireAll s ti).node (3 + s.nextTriNodeIdx)).LeftChild = none := by
  rw [wireAll_node_ri hti]
  rfl

theorem wireAll_ri_right {s : RoamState} {ti : Nat} (hti : ti < 2 + s.nextTriNodeIdx) :
    ((wireAll s ti).node (3 + s.nextTriNodeIdx)).RightChild = none := by
  rw [wireAll_node_ri hti]
  rfl

theorem wireAll_ri_base {s : RoamState} {ti : Nat} (hti : ti < 2 + s.nextTriNodeIdx) :
    ((wireAll s ti).node (3 + s.nextTriNodeIdx)).BaseNeighbor = some (2 + s.nextTriNodeIdx) := by
  rw [wireAll_node_ri hti]

theorem wireAll_ri_leftNb {s : RoamState} {ti : Nat} (hti : ti < 2 + s.nextTriNodeIdx) :
    ((wireAll s ti).node (3 + s.nextTriNodeIdx)).LeftNeighbor = none := by
  rw [wireAll_node_ri hti]
  rfl

theorem wireAll_ri_rightNb {s : RoamState} {ti : Nat} (hti : ti < 2 + s.nextTriNodeIdx) :
    ((wireAll s ti).node (3 + s.nextTriNodeIdx)).RightNeighbor = (s.node ti).RightNeighbor := by
  rw [wireAll_node_ri hti]

theorem inBound_wireAll {s : RoamState} {o : Option Nat} (ti : Nat) (h : inBound s o) :
    inBound (wireAll s ti) o := by
  intro j hj
  rw [wireAll_idx]
  exact lt_of_lt_of_le (h j hj) (by omega)

theorem inBound_none (s : RoamState) : inBound s none := by
  intro j hj
  cases hj

theorem inBound_some {s : RoamState} {t : Nat} (h : t < 2 + s.nextTriNodeIdx) :
    inBound s (some t) := by
  intro j hj
  injection hj with e
  omega

/-- The wired state satisfies the structural invariants. -/
theorem wireAll_core {s : RoamState} {ti : Nat} (hti : ti < 2 + s.nextTriNodeIdx)
    (hcore : GoodCore s) (_hL : (s.node ti).LeftChild = none)
    (_hR : (s.node ti).RightChild = none) :
    GoodCore (wireAll s ti) := by
  obtain ⟨hhsf, hsym, hlinks⟩ := hcore
  refine ⟨?_, ?_, ?_⟩
  · -- HSF
    intro i
    by_cases h1 : i = ti
    · rw [h1, wireAll_ti_left hti, wireAll_ti_right hti]
      simp
    · by_cases h2 : i = 2 + s.nextTriNodeIdx
      · rw [h2, wireAll_li_left hti, wireAll_li_right hti]
      · by_cases h3 : i = 3 + s.nextTriNodeIdx
        · rw [h3, wireAll_ri_left hti, wireAll_ri_right hti]
        · rw [wireAll_node_other hti h1 h2 h3]
          exact hhsf i
  · -- BaseSym
    intro i j hij
    by_cases h1 : i = ti
    · rw [h1, wireAll_ti_base hti] at hij
      have hj := hsym ti j hij
      by_cases hjt : j = ti
      · rw [hjt, wireAll_ti_base hti, h1]
        rw [hjt] at hj
        exact hj
      · have hjb : j < 2 + s.nextTriNodeIdx := (hlinks ti).2.2.1 j hij
        rw [wireAll_node_other hti hjt (by omega) (by omega), h1]
        exact hj
    · by_cases h2 : i = 2 + s.nextTriNodeIdx
      · rw [h2, wireAll_li_base hti] at hij
        injection hij with e
        rw [← e, wireAll_ri_base hti, h2]
      · by_cases h3 : i = 3 + s.nextTriNodeIdx
        · rw [h3, wireAll_ri_base hti] at hij
          injection hij with e
          rw [← e, wireAll_li_base hti, h3]
        · rw [wireAll_node_other hti h1 h2 h3] at hij
          have hj := hsym i j hij
          have hjb : j < 2 + s.nextTriNodeIdx := (hlinks i).2.2.1 j hij
          by_cases hjt : j = ti
          · rw [hjt, wireAll_ti_base hti]
            rw [hjt] at hj
            exact hj
          · rw [wireAll_node_other hti hjt (by omega) (by omega)]
            exact hj
  · -- LinksOK
    intro i
    by_cases h1 : i = ti
    · rw [h1, wireAll_ti_left hti, wireAll_ti_right hti, wireAll_ti_base hti,
        wireAll_ti_leftNb hti, wireAll_ti_rightNb hti]
      refine ⟨?_, ?_, ?_, ?_, ?_⟩
      · exact inBound_some (by rw [wireAll_idx]; omega)
      · exact inBound_some (by rw [wireAll_idx]; omega)
      · exact inBound_wireAll ti (hlinks ti).2.2.1
      · exact inBound_wireAll ti (hlinks ti).2.2.2.1
      · exact inBound_wireAll ti (hlinks ti).2.2.2.2
    · by_cases h2 : i = 2 + s.nextTriNodeIdx
      · rw [h2, wireAll_li_left hti, wireAll_li_right hti, wireAll_li_base hti,
          wireAll_li_leftNb hti, wireAll_li_rightNb hti]
        refine ⟨inBound_none _, inBound_none _, ?_, ?_, inBound_none _⟩
        · exact inBound_some (by rw [wireAll_idx]; omega)
        · exact inBound_wireAll ti (hlinks ti).2.2.2.1
      · by_cases h3 : i = 3 + s.nextTriNodeIdx
        · rw [h3, wireAll_ri_left hti, wireAll_ri_right hti, wireAll_ri_base hti,
            wireAll_ri_leftNb hti, wireAll_ri_rightNb hti]
          refine ⟨inBound_none _, inBound_none _, ?_, inBound_none _, ?_⟩
          · exact inBound_some (by rw [wireAll_idx]; omega)
          · exact inBound_wireAll ti (hlinks ti).2.2.2.2
        · rw [wireAll_node_other hti h1 h2 h3]
          exact ⟨inBound_wireAll ti (hlinks i).1, inBound_wireAll ti (hlinks i).2.1,
            inBound_wireAll ti (hlinks i).2.2.1, inBound_wireAll ti (hlinks i).2.2.2.1,
            inBound_wireAll ti (hlinks i).2.2.2.2⟩

/-- Classification of the base-neighbor pairs of the wired state. -/
theorem wireAll_pair_cases {s : RoamState} {ti : Nat} (hti : ti < 2 + s.nextTriNodeIdx)
    (hlinks : LinksOK s) {i j : Nat}
    (hij : ((wireAll s ti).node i).BaseNeighbor = some j) :
    (i = ti ∧ (s.node ti).BaseNeighbor = some j)
    ∨ (i = 2 + s.nextTriNodeIdx ∧ j = 3 + s.nextTriNodeIdx)
    ∨ (i = 3 + s.nextTriNodeIdx ∧ j = 2 + s.nextTriNodeIdx)
    ∨ (i ≠ ti ∧ i ≠ 2 + s.nextTriNodeIdx ∧ i ≠ 3 + s.nextTriNodeIdx ∧
        j ≠ 2 + s.nextTriNodeIdx ∧ j ≠ 3 + s.nextTriNodeIdx ∧
        (s.node i).BaseNeighbor = some j) := by
  by_cases h1 : i = ti
  · left
    rw [h1, wireAll_ti_base hti] at hij
    exact ⟨h1, hij⟩
  · by_cases h2 : i = 2 + s.nextTriNodeIdx
    · right; left
      rw [h2, wireAll_li_base hti] at hij
      injection hij with e
      exact ⟨h2, e.symm⟩
    · by_cases h3 : i = 3 + s.nextTriNodeIdx
      · right; right; left
        rw [h3, wireAll_ri_base hti] at hij
        injection hij with e
        exact ⟨h3, e.symm⟩
      · right; right; right
        rw [wireAll_node_other hti h1 h2 h3] at hij
        have hjb : j < 2 + s.nextTriNodeIdx := (hlinks i).2.2.1 j hij
        exact ⟨h1, h2, h3, by omega, by omega, hij⟩

/-- Main analysis of the allocate-and-wire step of `Split`, parameterized
over the behavior of the recursive call used for the diamond partner. -/
theorem splitLeafStep_spec (recur : RoamState → Nat → RoamState × Bool)
    (Hrec1 : ∀ t n, n < 2 + t.nextTriNodeIdx → GoodCore t →
      GoodCore (recur t n).1 ∧ t.nextTriNodeIdx ≤ (recur t n).1.nextTriNodeIdx ∧
        (recur t n).1.poolSize = t.poolSize)
    (Hrec3 : ∀ t n, n < 2 + t.nextTriNodeIdx → Pending t n → (recur t n).2 = true →
      GoodState (recur t n).1)
    (s : RoamState) (ti : Nat) (hti : ti < 2 + s.nextTriNodeIdx) (hcore : GoodCore s)
    (hL : (s.node ti).LeftChild = none) (hR : (s.node ti).RightChild = none) :
    (GoodCore (splitLeafStep recur s ti).1 ∧
      s.nextTriNodeIdx ≤ (splitLeafStep recur s ti).1.nextTriNodeIdx ∧
      (splitLeafStep recur s ti).1.poolSize = s.poolSize)
    ∧ (NoCrack s → (splitLeafStep recur s ti).2 = true →
        GoodState (splitLeafStep recur s ti).1)
    ∧ (NoCrackExcept s ti →
        (∃ p, (s.node ti).BaseNeighbor = some p ∧ (s.node p).LeftChild ≠ none) →
        (splitLeafStep recur s ti).2 = true → GoodState (splitLeafStep recur s ti).1) := by
  obtain ⟨hhsf, hsym, hlinks⟩ := hcore
  by_cases hout : s.OutOfNodes = true
  · rw [splitLeafStep_out recur s ti hL hR hout]
    exact ⟨⟨⟨hhsf, hsym, hlinks⟩, le_refl _, rfl⟩,
      fun _ h => absurd h (by simp), fun _ _ h => absurd h (by simp)⟩
  · have hout2 : s.OutOfNodes = false := by
      revert hout; cases s.OutOfNodes <;> simp
    rw [splitLeafStep_ok recur s ti hL hR hout2]
    have hidx5 : (wireAll s ti).nextTriNodeIdx = s.nextTriNodeIdx + 2 := wireAll_idx s ti
    have hcore5 : GoodCore (wireAll s ti) := wireAll_core hti ⟨hhsf, hsym, hlinks⟩ hL hR
    have hbase5 : ((wireAll s ti).node ti).BaseNeighbor = (s.node ti).BaseNeighbor :=
      wireAll_ti_base hti
    have htileaf5 : ((wireAll s ti).node ti).LeftChild = some (2 + s.nextTriNodeIdx) :=
      wireAll_ti_left hti
    cases hB : (s.node ti).BaseNeighbor with
    | none =>
      rw [splitRest_none recur _ ti _ _ (hbase5.trans hB)]
      refine ⟨⟨hcore5, by rw [hidx5]; omega, wireAll_poolSize s ti⟩, ?_, ?_⟩
      · intro hnc _
        refine ⟨hcore5, ?_⟩
        intro i j hij
        rcases wireAll_pair_cases hti hlinks hij with
          ⟨h1, hbj⟩ | ⟨h2, he⟩ | ⟨h3, he⟩ | ⟨h1, h2, h3, hj2, hj3, hsij⟩
        · rw [hB] at hbj; cases hbj
        · rw [h2, he, wireAll_li_left hti, wireAll_ri_left hti]
        · rw [h3, he, wireAll_ri_left hti, wireAll_li_left hti]
        · by_cases hjt : j = ti
          · rw [hjt] at hsij
            have := hsym i ti hsij
            rw [hB] at this
            cases this
          · rw [wireAll_node_other hti h1 h2 h3, wireAll_node_other hti hjt hj2 hj3]
            exact hnc i j hsij
      · intro _ hex _
        obtain ⟨p, hp, _⟩ := hex
        cases hp
    | some bi =>
      have hmatch : (s.node bi).BaseNeighbor = some ti := hsym ti bi hB
      have hbib : bi < 2 + s.nextTriNodeIdx := (hlinks ti).2.2.1 bi hB
      have hb5 : ((wireAll s ti).node ti).BaseNeighbor = some bi := by rw [hbase5, hB]
      by_cases hbt : bi = ti
      · -- degenerate self-loop: the node is its own base neighbor
        have hm5 : ((wireAll s ti).node bi).BaseNeighbor = some ti := by rw [hbt]; rw [hb5, hbt]
        have hbl5 : ((wireAll s ti).node bi).LeftChild = some (2 + s.nextTriNodeIdx) := by
          rw [hbt]; exact wireAll_ti_left hti
        have hbr5 : ((wireAll s ti).node bi).RightChild = some (3 + s.nextTriNodeIdx) := by
          rw [hbt]; exact wireAll_ti_right hti
        rw [splitRest_cross recur _ ti _ _ bi _ _ hb5 hm5 hbl5 hbr5]
        have hsc := crossLink_sameCore (wireAll s ti) (2 + s.nextTriNodeIdx)
          (3 + s.nextTriNodeIdx) (2 + s.nextTriNodeIdx) (3 + s.nextTriNodeIdx)
        have hgc : GoodCore (crossLink (wireAll s ti) (2 + s.nextTriNodeIdx)
            (3 + s.nextTriNodeIdx) (2 + s.nextTriNodeIdx) (3 + s.nextTriNodeIdx)) := by
          refine ⟨HSF_of_sameCore hsc hcore5.1, BaseSym_of_sameCore hsc hcore5.2.1, ?_⟩
          exact LinksOK_crossLink hcore5.2.2 (by rw [hidx5]; omega) (by rw [hidx5]; omega)
            (by rw [hidx5]; omega) (by rw [hidx5]; omega)
        refine ⟨⟨hgc, by rw [crossLink_idx, hidx5]; omega, by rw [crossLink_poolSize]; exact wireAll_poolSize s ti⟩, ?_, ?_⟩
        · intro hnc _
          refine ⟨hgc, NoCrack_of_sameCore hsc ?_⟩
          intro i j hij
          rcases wireAll_pair_cases hti hlinks hij with
            ⟨h1, hbj⟩ | ⟨h2, he⟩ | ⟨h3, he⟩ | ⟨h1, h2, h3, hj2, hj3, hsij⟩
          · rw [hB] at hbj
            injection hbj with e
            rw [h1, ← e, hbt]
          · rw [h2, he, wireAll_li_left hti, wireAll_ri_left hti]
          · rw [h3, he, wireAll_ri_left hti, wireAll_li_left hti]
          · by_cases hjt : j = ti
            · rw [hjt] at hsij
              have h4 := hsym i ti hsij
              rw [hB] at h4
              injection h4 with e
              rw [hbt] at e
              exact absurd e.symm h1
            · rw [wireAll_node_other hti h1 h2 h3, wireAll_node_other hti hjt hj2 hj3]
              exact hnc i j hsij
        · intro _ hex _
          obtain ⟨p, hp, hpbr⟩ := hex
          injection hp with e
          rw [← e, hbt] at hpbr
          exact absurd hL hpbr
      · -- genuine diamond partner
        have hm5 : ((wireAll s ti).node bi).BaseNeighbor = some ti := by
          rw [wireAll_node_other hti hbt (by omega) (by omega)]
          exact hmatch
        by_cases hbranch : (s.node bi).RightChild = none
        · -- partner still a Leaf: split it too
          have hbleaf : (s.node bi).LeftChild = none := (hhsf bi).mpr hbranch
          have hbranch5 : ((wireAll s ti).node bi).IsBranch = false := by
            rw [TriTreeNode.IsBranch, wireAll_node_other hti hbt (by omega) (by omega), hbranch]
            rfl
          rw [splitRest_partner recur _ ti _ _ bi hb5 hm5 hbranch5]
          have hbib5 : bi < 2 + (wireAll s ti).nextTriNodeIdx := by rw [hidx5]; omega
          have hbleaf5 : ((wireAll s ti).node bi).LeftChild = none := by
            rw [wireAll_node_other hti hbt (by omega) (by omega)]
            exact hbleaf
          refine ⟨?_, ?_, ?_⟩
          · obtain ⟨hc, hmono, hps⟩ := Hrec1 _ bi hbib5 hcore5
            refine ⟨hc, ?_, ?_⟩
            · rw [hidx5] at hmono; omega
            · rw [hps]; exact wireAll_poolSize s ti
          · intro hnc hok
            have hpend : Pending (wireAll s ti) bi := by
              refine ⟨hcore5, hbleaf5, ⟨ti, hm5, ?_⟩, ?_⟩
              · rw [htileaf5]; simp
              · intro i j hij hib hjb2
                rcases wireAll_pair_cases hti hlinks hij with
                  ⟨h1, hbj⟩ | ⟨h2, he⟩ | ⟨h3, he⟩ | ⟨h1, h2, h3, hj2, hj3, hsij⟩
                · rw [hB] at hbj
                  injection hbj with e
                  exact absurd e.symm hjb2
                · rw [h2, he, wireAll_li_left hti, wireAll_ri_left hti]
                · rw [h3, he, wireAll_ri_left hti, wireAll_li_left hti]
                · by_cases hjt : j = ti
                  · rw [hjt] at hsij
                    have h4 := hsym i ti hsij
                    rw [hB] at h4
                    injection h4 with e
                    exact absurd e.symm hib
                  · rw [wireAll_node_other hti h1 h2 h3, wireAll_node_other hti hjt hj2 hj3]
                    exact hnc i j hsij
            exact Hrec3 _ bi hbib5 hpend hok
          · intro hexc hex hok
            obtain ⟨p, hp, hpbr⟩ := hex
            injection hp with e
            rw [← e] at hpbr
            exact absurd hbleaf hpbr
        · -- partner already a Branch: cross-link only
          obtain ⟨br, hbr⟩ : ∃ br, (s.node bi).RightChild = some br := by
            cases hx : (s.node bi).RightChild with
            | none => exact absurd hx hbranch
            | some br => exact ⟨br, rfl⟩
          have hblx : ¬(s.node bi).LeftChild = none := fun hx => hbranch ((hhsf bi).mp hx)
          obtain ⟨bl, hbl⟩ : ∃ bl, (s.node bi).LeftChild = some bl := by
            cases hx : (s.node bi).LeftChild with
            | none => exact absurd hx hblx
            | some bl => exact ⟨bl, rfl⟩
          have hbl5 : ((wireAll s ti).node bi).LeftChild = some bl := by
            rw [wireAll_node_other hti hbt (by omega) (by omega)]
            exact hbl
          have hbr5 : ((wireAll s ti).node bi).RightChild = some br := by
            rw [wireAll_node_other hti hbt (by omega) (by omega)]
            exact hbr
          rw [splitRest_cross recur _ ti _ _ bi bl br hb5 hm5 hbl5 hbr5]
          have hblb : bl < 2 + s.nextTriNodeIdx := (hlinks bi).1 bl hbl
          have hbrb : br < 2 + s.nextTriNodeIdx := (hlinks bi).2.1 br hbr
          have hsc := crossLink_sameCore (wireAll s ti) (2 + s.nextTriNodeIdx)
            (3 + s.nextTriNodeIdx) bl br
          have hgc : GoodCore (crossLink (wireAll s ti) (2 + s.nextTriNodeIdx)
              (3 + s.nextTriNodeIdx) bl br) := by
            refine ⟨HSF_of_sameCore hsc hcore5.1, BaseSym_of_sameCore hsc hcore5.2.1, ?_⟩
            exact LinksOK_crossLink hcore5.2.2 (by rw [hidx5]; omega) (by rw [hidx5]; omega)
              (by rw [hidx5]; omega) (by rw [hidx5]; omega)
          have hnc5 : NoCrackExcept s ti → NoCrack (wireAll s ti) := by
            intro hexc i j hij
            rcases wireAll_pair_cases hti hlinks hij with
              ⟨h1, hbj⟩ | ⟨h2, he⟩ | ⟨h3, he⟩ | ⟨h1, h2, h3, hj2, hj3, hsij⟩
            · rw [hB] at hbj
              injection hbj with e
              rw [h1, ← e, htileaf5]
              rw [hbl5]
              simp
            · rw [h2, he, wireAll_li_left hti, wireAll_ri_left hti]
            · rw [h3, he, wireAll_ri_left hti, wireAll_li_left hti]
            · by_cases hjt : j = ti
              · rw [hjt] at hsij
                have h4 := hsym i ti hsij
                rw [hB] at h4
                injection h4 with e
                rw [← e] at h1 h2 h3 ⊢
                rw [hjt]
                rw [wireAll_node_other hti h1 h2 h3, hbl, htileaf5]
                simp
              · by_cases hjbi : j = bi
                · rw [hjbi] at hsij
                  have h4 := hsym i bi hsij
                  rw [hmatch] at h4
                  injection h4 with e
                  exact absurd e.symm h1
                · by_cases hibi : i = bi
                  · rw [hibi, hmatch] at hsij
                    injection hsij with e
                    exact absurd e.symm hjt
                  · rw [wireAll_node_other hti h1 h2 h3,
                      wireAll_node_other hti hjt hj2 hj3]
                    exact hexc i j hsij h1 hjt
          refine ⟨⟨hgc, by rw [crossLink_idx, hidx5]; omega, by rw [crossLink_poolSize]; exact wireAll_poolSize s ti⟩, ?_, ?_⟩
          · intro hnc _
            have hbi_leaf : (s.node bi).LeftChild = none := (hnc ti bi hB).mp hL
            rw [hbl] at hbi_leaf
            cases hbi_leaf
          · intro hexc _ _
            exact ⟨hgc, NoCrack_of_sameCore hsc (hnc5 hexc)⟩

/-- Main invariant theorem for `Split`: on an allocated target, the
structural invariants (never-half-split, base symmetry, no dangling links)
survive any call, the pool index is monotone and the pool size fixed; and
from a crack-free state (or from the pending second half of a diamond), a
successful call re-establishes the full invariant including no-crack. -/
theorem split_main : ∀ (fuel : Nat) (s : RoamState) (ti : Nat),
    ti < 2 + s.nextTriNodeIdx →
    (GoodCore s → GoodCore (Split fuel s ti).1 ∧
      s.nextTriNodeIdx ≤ (Split fuel s ti).1.nextTriNodeIdx ∧
      (Split fuel s ti).1.poolSize = s.poolSize)
    ∧ (GoodState s → (Split fuel s ti).2 = true → GoodState (Split fuel s ti).1)
    ∧ (Pending s ti → (Split fuel s ti).2 = true → GoodState (Split fuel s ti).1) := by
  intro fuel
  induction fuel with
  | zero =>
    intro s ti hti
    exact ⟨fun hc => ⟨hc, le_refl _, rfl⟩,
      fun _ h => absurd h (by simp [split_zero]),
      fun _ h => absurd h (by simp [split_zero])⟩
  | succ fuel ih =>
    intro s ti hti
    have Hrec1 : ∀ t n, n < 2 + t.nextTriNodeIdx → GoodCore t →
        GoodCore (Split fuel t n).1 ∧
          t.nextTriNodeIdx ≤ (Split fuel t n).1.nextTriNodeIdx ∧
          (Split fuel t n).1.poolSize = t.poolSize := fun t n hn => (ih t n hn).1
    have Hrec3 : ∀ t n, n < 2 + t.nextTriNodeIdx → Pending t n →
        (Split fuel t n).2 = true → GoodState (Split fuel t n).1 :=
      fun t n hn => (ih t n hn).2.2
    by_cases hbr : (s.node ti).IsBranch = true
    · rw [split_eq_branch fuel s ti hbr]
      refine ⟨fun hc => ⟨hc, le_refl _, rfl⟩, fun hg _ => hg, fun hp _ => ?_⟩
      obtain ⟨⟨hhsf, _, _⟩, hleaf, _, _⟩ := hp
      have hrn : (s.node ti).RightChild = none := (hhsf ti).mp hleaf
      rw [TriTreeNode.IsBranch, hrn] at hbr
      simp at hbr
    · have hbr2 : (s.node ti).IsBranch = false := by
        revert hbr; cases (s.node ti).IsBranch <;> simp
      have hR : (s.node ti).RightChild = none := by
        revert hbr2; rw [TriTreeNode.IsBranch]
        cases (s.node ti).RightChild <;> simp
      refine ⟨?_, ?_, ?_⟩
      · intro hcore
        have hL : (s.node ti).LeftChild = none := (hcore.1 ti).mpr hR
        cases hB : (s.node ti).BaseNeighbor with
        | none =>
          rw [split_eq_leaf_none fuel s ti hbr2 hB]
          exact (splitLeafStep_spec (Split fuel) Hrec1 Hrec3 s ti hti hcore hL hR).1
        | some bi =>
          have hmatch := hcore.2.1 ti bi hB
          rw [split_eq_leaf_matched fuel s ti bi hbr2 hB hmatch]
          exact (splitLeafStep_spec (Split fuel) Hrec1 Hrec3 s ti hti hcore hL hR).1
      · intro hgs hok
        have hL : (s.node ti).LeftChild = none := (hgs.1.1 ti).mpr hR
        cases hB : (s.node ti).BaseNeighbor with
        | none =>
          rw [split_eq_leaf_none fuel s ti hbr2 hB] at hok ⊢
          exact (splitLeafStep_spec (Split fuel) Hrec1 Hrec3 s ti hti hgs.1 hL hR).2.1
            hgs.2 hok
        | some bi =>
          have hmatch := hgs.1.2.1 ti bi hB
          rw [split_eq_leaf_matched fuel s ti bi hbr2 hB hmatch] at hok ⊢
          exact (splitLeafStep_spec (Split fuel) Hrec1 Hrec3 s ti hti hgs.1 hL hR).2.1
            hgs.2 hok
      · intro hp hok
        have hL : (s.node ti).LeftChild = none := hp.2.1
        cases hB : (s.node ti).BaseNeighbor with
        | none =>
          rw [split_eq_leaf_none fuel s ti hbr2 hB] at hok ⊢
          exact (splitLeafStep_spec (Split fuel) Hrec1 Hrec3 s ti hti hp.1 hL hR).2.2
            hp.2.2.2 hp.2.2.1 hok
        | some bi =>
          have hmatch := hp.1.2.1 ti bi hB
          rw [split_eq_leaf_matched fuel s ti bi hbr2 hB hmatch] at hok ⊢
          exact (splitLeafStep_spec (Split fuel) Hrec1 Hrec3 s ti hti hp.1 hL hR).2.2
            hp.2.2.2 hp.2.2.1 hok

/-! ### The freshly reset tile -/

theorem initState_good (ps : Nat) : GoodState (initState ps) := by
  have hnode : ∀ i, (initState ps).node i =
      (if i = 0 then { TriTreeNode.ctor with BaseNeighbor := some 1 }
        else if i = 1 then { TriTreeNode.ctor with BaseNeighbor := some 0 }
        else TriTreeNode.ctor) := fun i => rfl
  refine ⟨⟨?_, ?_, ?_⟩, ?_⟩
  · intro i
    rw [hnode i]
    by_cases h0 : i = 0
    · rw [if_pos h0]; exact Iff.rfl
    · rw [if_neg h0]
      by_cases h1 : i = 1
      · rw [if_pos h1]; exact Iff.rfl
      · rw [if_neg h1]; exact Iff.rfl
  · intro i j hij
    rw [hnode i] at hij
    by_cases h0 : i = 0
    · rw [if_pos h0] at hij
      injection hij with e
      rw [← e, hnode 1, h0]
      rfl
    · rw [if_neg h0] at hij
      by_cases h1 : i = 1
      · rw [if_pos h1] at hij
        injection hij with e
        rw [← e, hnode 0, h1]
        rfl
      · rw [if_neg h1] at hij
        cases hij
  · intro i
    rw [hnode i]
    by_cases h0 : i = 0
    · rw [if_pos h0]
      exact ⟨inBound_none _, inBound_none _, inBound_some (by simp [initState]),
        inBound_none _, inBound_none _⟩
    · rw [if_neg h0]
      by_cases h1 : i = 1
      · rw [if_pos h1]
        exact ⟨inBound_none _, inBound_none _, inBound_some (by simp [initState]),
          inBound_none _, inBound_none _⟩
      · rw [if_neg h1]
        exact ⟨inBound_none _, inBound_none _, inBound_none _, inBound_none _,
          inBound_none _⟩
  · intro i j hij
    rw [hnode i] at hij
    by_cases h0 : i = 0
    · rw [if_pos h0] at hij
      injection hij with e
      rw [hnode i, hnode j, ← e, if_pos h0]
      rfl
    · rw [if_neg h0] at hij
      by_cases h1 : i = 1
      · rw [if_pos h1] at hij
        injection hij with e
        rw [hnode i, hnode j, ← e, if_neg h0, if_pos h1]
        rfl
      · rw [if_neg h1] at hij
        cases hij

/-- A sequence of `Split` calls that all succeed on allocated targets
preserves the full invariant. -/
theorem splitSeq_good (fuel : Nat) :
    ∀ (reqs : List Nat) (s : RoamState), GoodState s →
      SeqOK fuel s reqs = true → GoodState (SplitSeq fuel s reqs) := by
  intro reqs
  induction reqs with
  | nil => exact fun s hg _ => hg
  | cons n rest ih =>
    intro s hg hok
    rw [SeqOK, Bool.and_assoc, Bool.and_eq_true, decide_eq_true_iff] at hok
    obtain ⟨h1, hok2⟩ := hok
    rw [Bool.and_eq_true] at hok2
    obtain ⟨h2, h3⟩ := hok2
    have hg2 := (split_main fuel s n h1).2.1 hg h2
    exact ih (Split fuel s n).1 hg2 h3

/-- C1 (amended): after any sequence of `Split` calls on existing
(allocated) nodes within one tessellation pass in which every call returns
success, for every node A whose `BaseNeighbor` is B, with neither A nor B
at a tile boundary (both base-neighbor links non-null), A is a Leaf if and
only if B is a Leaf.  The success proviso is forced by the pool-exhaustion
counterexample `split_sequence_crack_counterexample`. -/
theorem no_crack_after_successful_splits (fuel ps : Nat) (reqs : List Nat) (a b : Nat)
    (hseq : SeqOK fuel (initState ps) reqs = true)
    (hab : ((SplitSeq fuel (initState ps) reqs).node a).BaseNeighbor = some b)
    (_hbn : ((SplitSeq fuel (initState ps) reqs).node b).BaseNeighbor ≠ none) :
    ((SplitSeq fuel (initState ps) reqs).node a).IsLeaf =
      ((SplitSeq fuel (initState ps) reqs).node b).IsLeaf := by
  have hg := splitSeq_good fuel reqs (initState ps) (initState_good ps) hseq
  have hiff := hg.2 a b hab
  rw [TriTreeNode.IsLeaf, TriTreeNode.IsLeaf]
  cases hxa : ((SplitSeq fuel (initState ps) reqs).node a).LeftChild with
  | none => rw [hiff.mp hxa]
  | some v =>
    cases hxb : ((SplitSeq fuel (initState ps) reqs).node b).LeftChild with
    | none =>
      rw [hiff.mpr hxb] at hxa
      cases hxa
    | some w => rfl

/-- Witness for C1: with pool capacity 4, the single successful call
`Split baseLeft` splits the whole root diamond; the two roots remain
mutually base-linked and are both Branches. -/
theorem no_crack_after_successful_splits_witness :
    (SeqOK 5 (initState 4) [0] = true
      ∧ ((SplitSeq 5 (initState 4) [0]).node 0).BaseNeighbor = some 1
      ∧ ((SplitSeq 5 (initState 4) [0]).node 1).BaseNeighbor ≠ none)
    ∧ ((SplitSeq 5 (initState 4) [0]).node 0).IsLeaf =
        ((SplitSeq 5 (initState 4) [0]).node 1).IsLeaf :=
  ⟨⟨by decide, by decide, by decide⟩,
    no_crack_after_successful_splits 5 4 [0] 0 1 (by decide) (by decide) (by decide)⟩

/-- C1 counterexample: with pool capacity 2 the sequence consisting of the
single call `Split baseLeft` exhausts the pool after the first half of the
root diamond, leaving node 0 a Branch and node 1 a Leaf although they are
mutual base neighbors with both links non-null — the claim as stated
(without the all-calls-succeed proviso) is false. -/
theorem split_sequence_crack_counterexample :
    ((SplitSeq 5 (initState 2) [0]).node 0).BaseNeighbor = some 1
    ∧ ((SplitSeq 5 (initState 2) [0]).node 1).BaseNeighbor = some 0
    ∧ ((SplitSeq 5 (initState 2) [0]).node 0).IsLeaf = false
    ∧ ((SplitSeq 5 (initState 2) [0]).node 1).IsLeaf = true := by
  decide

/-! ### Tessellation-level invariants -/

theorem recursTess_core (P : LodParams) (vr : ℚ) (cam : ℚ × ℚ) (varr : Nat → ℚ) :
    ∀ (d : Nat) (s : RoamState) (i : Nat) (g : TriGeom) (k : Nat),
      GoodCore s → i < 2 + s.nextTriNodeIdx →
      GoodCore (RecursTessellate P vr cam varr d s i g k).1 ∧
        s.nextTriNodeIdx ≤ (RecursTessellate P vr cam varr d s i g k).1.nextTriNodeIdx := by
  intro d
  induction d with
  | zero => exact fun s i g k hc _ => ⟨hc, le_refl _⟩
  | succ d ih =>
    intro s i g k hc hi
    simp only [RecursTessellate]
    split
    · obtain ⟨hc1, hmono1, _⟩ := (split_main (splitFuel s) s i hi).1 hc
      split
      · rename_i lc rc hlc hrc
        have hlcb : lc < 2 + (Split (splitFuel s) s i).1.nextTriNodeIdx :=
          (hc1.2.2 i).1 lc hlc
        have h2 := ih (Split (splitFuel s) s i).1 lc (childL g) (2 * k) hc1 hlcb
        have hrcb : rc < 2 +
            (RecursTessellate P vr cam varr d (Split (splitFuel s) s i).1 lc
              (childL g) (2 * k)).1.nextTriNodeIdx :=
          lt_of_lt_of_le ((hc1.2.2 i).2.1 rc hrc) (by omega)
        have h3 := ih (RecursTessellate P vr cam varr d (Split (splitFuel s) s i).1 lc
          (childL g) (2 * k)).1 rc (childR g) (2 * k + 1) h2.1 hrcb
        exact ⟨h3.1, hmono1.trans (h2.2.trans h3.2)⟩
      · exact ⟨hc1, hmono1⟩
    · exact ⟨hc, le_refl _⟩

theorem tessellate_fst (P : LodParams) (vr : ℚ) (cam : ℚ × ℚ) (h : ℤ × ℤ → ℚ)
    (gL gR : TriGeom) (D ps : Nat) :
    (Tessellate P vr cam h gL gR D ps).1 =
      (RecursTessellate P vr cam (storedVariance h gR D) D
        (RecursTessellate P vr cam (storedVariance h gL D) D (initState ps) 0 gL 1).1
        1 gR 1).1 := rfl

theorem tessellate_snd (P : LodParams) (vr : ℚ) (cam : ℚ × ℚ) (h : ℤ × ℤ → ℚ)
    (gL gR : TriGeom) (D ps : Nat) :
    (Tessellate P vr cam h gL gR D ps).2 =
      ((RecursTessellate P vr cam (storedVariance h gL D) D (initState ps) 0 gL 1).2 &&
        (RecursTessellate P vr cam (storedVariance h gR D) D
          (RecursTessellate P vr cam (storedVariance h gL D) D (initState ps) 0 gL 1).1
          1 gR 1).2) := rfl

/-- The tessellated state satisfies the structural invariants globally. -/
theorem tessellate_core (P : LodParams) (vr : ℚ) (cam : ℚ × ℚ) (h : ℤ × ℤ → ℚ)
    (gL gR : TriGeom) (D ps : Nat) :
    GoodCore (Tessellate P vr cam h gL gR D ps).1 := by
  rw [tessellate_fst]
  have h1 := recursTess_core P vr cam (storedVariance h gL D) D (initState ps) 0 gL 1
    (initState_good ps).1 (by omega)
  exact (recursTess_core P vr cam (storedVariance h gR D) D _ 1 gR 1 h1.1
    (by omega)).1

/-- C2: in every tree produced by `Tessellate`, every node reachable from
either root has both children null (Leaf) or both children non-null
(Branch); no reachable node is half-split.  (The invariant in fact holds
for every node of the arena, reachable or not.) -/
theorem tessellate_never_half_split (P : LodParams) (vr : ℚ) (cam : ℚ × ℚ)
    (h : ℤ × ℤ → ℚ) (gL gR : TriGeom) (D ps : Nat) (i : Nat)
    (_hreach : Reachable (Tessellate P vr cam h gL gR D ps).1 0 i ∨
      Reachable (Tessellate P vr cam h gL gR D ps).1 1 i) :
    ((Tessellate P vr cam h gL gR D ps).1.node i).childrenConsistent :=
  (tessellate_core P vr cam h gL gR D ps).1 i

/-- Witness for C2: the root node 0 of a concretely tessellated spiky tile
is reachable from itself and has consistent children. -/
theorem tessellate_never_half_split_witness :
    ((Tessellate demoParams 10 (1, 1) spikeHeight gLDemo gRDemo 2 4).1.node 0).childrenConsistent :=
  tessellate_never_half_split demoParams 10 (1, 1) spikeHeight gLDemo gRDemo 2 4 0
    (Or.inl (Reachable.refl 0))

/-! ### Pool exhaustion during Split (claim C3) -/

theorem split_abort_of_out (fuel : Nat) (s : RoamState) (n : Nat)
    (hgs : GoodState s) (hout : s.OutOfNodes = true)
    (hleaf : (s.node n).LeftChild = none) :
    Split (fuel + 1) s n = (s, false) := by
  obtain ⟨⟨hhsf, hsym, hlinks⟩, _⟩ := hgs
  have hR : (s.node n).RightChild = none := (hhsf n).mp hleaf
  have hbr : (s.node n).IsBranch = false := by rw [TriTreeNode.IsBranch, hR]; rfl
  cases hB : (s.node n).BaseNeighbor with
  | none =>
    rw [split_eq_leaf_none fuel s n hbr hB, splitLeafStep_out _ s n hleaf hR hout]
  | some bi =>
    rw [split_eq_leaf_matched fuel s n bi hbr hB (hsym n bi hB),
      splitLeafStep_out _ s n hleaf hR hout]

theorem recursTess_abort (P : LodParams) (vr : ℚ) (cam : ℚ × ℚ) (varr : Nat → ℚ)
    (d : Nat) (s : RoamState) (n : Nat) (g : TriGeom) (k : Nat)
    (hgs : GoodState s) (hout : s.OutOfNodes = true)
    (hleaf : (s.node n).LeftChild = none)
    (hw : wantSplit P vr cam (varr k) (midpt g) = true) :
    (RecursTessellate P vr cam varr (d + 1) s n g k).2 = false := by
  have habort : Split (splitFuel s) s n = (s, false) :=
    split_abort_of_out (s.poolSize + 2) s n hgs hout hleaf
  simp only [RecursTessellate]
  split
  · rw [habort]
    simp [hleaf]
  · rename_i hw2
    exact absurd hw hw2

theorem tessellate_abort_empty_pool (P : LodParams) (vr : ℚ) (cam : ℚ × ℚ)
    (h : ℤ × ℤ → ℚ) (gL gR : TriGeom) (D : Nat)
    (hw : wantSplit P vr cam (storedVariance h gL (D + 1) 1) (midpt gL) = true) :
    (Tessellate P vr cam h gL gR (D + 1) 0).2 = false := by
  rw [tessellate_snd]
  have h1 : (RecursTessellate P vr cam (storedVariance h gL (D + 1)) (D + 1)
      (initState 0) 0 gL 1).2 = false :=
    recursTess_abort P vr cam (storedVariance h gL (D + 1)) D (initState 0) 0 gL 1
      (initState_good 0) (by decide) (by decide) hw
  rw [h1, Bool.false_and]

/-- C3 (amended): when `Allocate` reports exhaustion during a `Split`, that
`Split` aborts with a false return and no state change at that call, the
tree is left at whatever depth was reached and remains valid in the
never-half-split sense, no adjacency link points into an unallocated node,
and the condition is surfaced to the `Tessellate` caller as a false
(tessellation-incomplete) signal rather than a fatal error.  However — in
contrast to the claim's "non-cracking" — the mesh may retain a crack across
a diamond whose second half could not be allocated
(`split_exhaustion_crack_counterexample`). -/
theorem split_exhaustion_safe :
    (∀ (fuel : Nat) (s : RoamState) (n : Nat), GoodState s → s.OutOfNodes = true →
      (s.node n).LeftChild = none → Split (fuel + 1) s n = (s, false))
    ∧ (∀ (fuel : Nat) (s : RoamState) (n : Nat), n < 2 + s.nextTriNodeIdx → GoodCore s →
      HSF (Split fuel s n).1 ∧ LinksOK (Split fuel s n).1)
    ∧ (∀ (P : LodParams) (vr : ℚ) (cam : ℚ × ℚ) (varr : Nat → ℚ) (d : Nat)
        (s : RoamState) (n : Nat) (g : TriGeom) (k : Nat),
      GoodState s → s.OutOfNodes = true → (s.node n).LeftChild = none →
      wantSplit P vr cam (varr k) (midpt g) = true →
      (RecursTessellate P vr cam varr (d + 1) s n g k).2 = false)
    ∧ (∀ (P : LodParams) (vr : ℚ) (cam : ℚ × ℚ) (h : ℤ × ℤ → ℚ) (gL gR : TriGeom)
        (D : Nat),
      wantSplit P vr cam (storedVariance h gL (D + 1) 1) (midpt gL) = true →
      (Tessellate P vr cam h gL gR (D + 1) 0).2 = false) := by
  refine ⟨split_abort_of_out, ?_, recursTess_abort, tessellate_abort_empty_pool⟩
  intro fuel s n hn hcore
  obtain ⟨⟨hhsf, hsym, hlinks⟩, _, _⟩ := (split_main fuel s n hn).1 hcore
  exact ⟨hhsf, hlinks⟩

/-- Witness for C3: splitting on an already-empty pool aborts without state
change; a failed split of the capacity-2 diamond leaves a never-half-split
tree with no dangling links; and both the recursive tessellation step and
`Tessellate` itself surface the failure as a false return. -/
theorem split_exhaustion_safe_witness :
    Split (0 + 1) (initState 0) 0 = (initState 0, false)
    ∧ (HSF (Split 5 (initState 2) 0).1 ∧ LinksOK (Split 5 (initState 2) 0).1)
    ∧ (RecursTessellate demoParams 1 (1, 1) (fun _ => 100) (0 + 1) (initState 0) 0
        gLDemo 1).2 = false
    ∧ (Tessellate demoParams 1 (1, 1) spikeHeight gLDemo gRDemo (0 + 1) 0).2 = false :=
  ⟨split_exhaustion_safe.1 0 (initState 0) 0 (initState_good 0) (by decide) (by decide),
    split_exhaustion_safe.2.1 5 (initState 2) 0 (by decide) (initState_good 2).1,
    split_exhaustion_safe.2.2.1 demoParams 1 (1, 1) (fun _ => 100) 0 (initState 0) 0
      gLDemo 1 (initState_good 0) (by decide) (by decide)
      (by norm_num [wantSplit, dist2, midpt, gLDemo, demoParams]),
    split_exhaustion_safe.2.2.2 demoParams 1 (1, 1) spikeHeight gLDemo gRDemo 0
      (by norm_num [wantSplit, dist2, midpt, gLDemo, demoParams, storedVariance, depthOf,
        heapDepth, nodeGeom, nodeGeomF, variance, deviation, spikeHeight, childL, childR])⟩

/-- C3 counterexample: with pool capacity 2, `Split baseLeft` allocates the
first diamond half, exhausts the pool on the partner, and returns false —
the tree is left with node 0 a Branch and node 1 a Leaf across a shared
base edge, i.e. the claimed "remains ... non-cracking" fails on exhaustion. -/
theorem split_exhaustion_crack_counterexample :
    (Split 5 (initState 2) 0).2 = false
    ∧ ((Split 5 (initState 2) 0).1.node 0).IsBranch = true
    ∧ ((Split 5 (initState 2) 0).1.node 1).IsLeaf = true
    ∧ ((Split 5 (initState 2) 0).1.node 0).BaseNeighbor = some 1
    ∧ ((Split 5 (initState 2) 0).1.node 1).BaseNeighbor = some 0
    ∧ (Split 5 (initState 2) 0).1.OutOfNodes = true := by
  decide

/-! ### Flat heightmap scenario (claim C7) -/

theorem deviation_flat {h : ℤ × ℤ → ℚ} {c : ℚ} (hflat : ∀ p, h p = c) (g : TriGeom) :
    deviation h g = 0 := by
  rw [deviation, hflat, hflat, hflat]
  have e : (c + c) / 2 = c := by ring
  rw [e, sub_self, abs_zero]

theorem variance_flat {h : ℤ × ℤ → ℚ} {c : ℚ} (hflat : ∀ p, h p = c) :
    ∀ (d : Nat) (g : TriGeom), variance h d g = 0 := by
  intro d
  induction d with
  | zero => exact fun g => deviation_flat hflat g
  | succ d ih =>
    intro g
    show max (deviation h g) (max (variance h d (childL g)) (variance h d (childR g))) = 0
    rw [ih, ih, deviation_flat hflat]
    simp

theorem wantSplit_zero (P : LodParams) (vr : ℚ) (cam : ℚ × ℚ) (m : ℤ × ℤ)
    (hlim : 0 ≤ P.varianceMaxLimit) : wantSplit P vr cam 0 m = false := by
  rw [wantSplit]
  have hd : (0 : ℚ) ≤ dist2 m cam := by
    rw [dist2]
    positivity
  have h2 : ¬((0 : ℚ) * P.camDistLODFactor * vr >
      P.varianceMaxLimit * (1 + dist2 m cam)) := by
    have h3 : (0 : ℚ) ≤ P.varianceMaxLimit * (1 + dist2 m cam) :=
      mul_nonneg hlim (by linarith)
    simp only [zero_mul]
    linarith
  rw [decide_eq_false h2, Bool.and_false]

theorem recursTess_noop (P : LodParams) (vr : ℚ) (cam : ℚ × ℚ) (varr : Nat → ℚ)
    (hall : ∀ k m, wantSplit P vr cam (varr k) m = false) :
    ∀ (d : Nat) (s : RoamState) (i : Nat) (g : TriGeom) (k : Nat),
      RecursTessellate P vr cam varr d s i g k = (s, true) := by
  intro d
  cases d with
  | zero => intro s i g k; rfl
  | succ d => intro s i g k; simp [RecursTessellate, hall]

/-- C7: for a heightmap of uniform height, `Tessellate` at any camera
position and view radius decides "do not split" for every triangle, so the
tree consists of exactly the two root leaf triangles (the state is the
freshly reset one), `GenerateIndices` emits exactly 6 index entries, and
`GetTriCount` returns 2. -/
theorem flat_heightmap_two_root_leaves (c : ℚ) (h : ℤ × ℤ → ℚ) (P : LodParams)
    (vr : ℚ) (cam : ℚ × ℚ) (gL gR : TriGeom) (D ps : Nat)
    (hflat : ∀ p, h p = c) (hlim : 0 ≤ P.varianceMaxLimit) :
    (∀ (g : TriGeom) (d : Nat), wantSplit P vr cam (variance h d g) (midpt g) = false)
    ∧ (Tessellate P vr cam h gL gR D ps).1 = initState ps
    ∧ (Tessellate P vr cam h gL gR D ps).2 = true
    ∧ (GenerateIndices (Tessellate P vr cam h gL gR D ps).1 gL gR).length = 6
    ∧ GetTriCount (GenerateIndices (Tessellate P vr cam h gL gR D ps).1 gL gR) = 2 := by
  have hdec : ∀ (g : TriGeom) (d : Nat),
      wantSplit P vr cam (variance h d g) (midpt g) = false := by
    intro g d
    rw [variance_flat hflat d g]
    exact wantSplit_zero P vr cam (midpt g) hlim
  have hallL : ∀ k m, wantSplit P vr cam (storedVariance h gL D k) m = false := by
    intro k m
    rw [storedVariance, variance_flat hflat]
    exact wantSplit_zero P vr cam m hlim
  have hallR : ∀ k m, wantSplit P vr cam (storedVariance h gR D k) m = false := by
    intro k m
    rw [storedVariance, variance_flat hflat]
    exact wantSplit_zero P vr cam m hlim
  have hfst : (Tessellate P vr cam h gL gR D ps).1 = initState ps := by
    rw [tessellate_fst,
      recursTess_noop P vr cam (storedVariance h gL D) hallL D (initState ps) 0 gL 1,
      recursTess_noop P vr cam (storedVariance h gR D) hallR D _ 1 gR 1]
  have hsnd : (Tessellate P vr cam h gL gR D ps).2 = true := by
    rw [tessellate_snd,
      recursTess_noop P vr cam (storedVariance h gL D) hallL D (initState ps) 0 gL 1,
      recursTess_noop P vr cam (storedVariance h gR D) hallR D _ 1 gR 1]
    rfl
  have hleaf0 : ((initState ps).node 0).LeftChild = none := rfl
  have hleaf1 : ((initState ps).node 1).LeftChild = none := rfl
  have hr0 : RecursRender (initState ps) ((initState ps).poolSize + 2) 0 gL =
      [gL.left, gL.rght, gL.apex] := by
    show RecursRender (initState ps) (((initState ps).poolSize + 1) + 1) 0 gL = _
    simp [RecursRender, hleaf0]
  have hr1 : RecursRender (initState ps) ((initState ps).poolSize + 2) 1 gR =
      [gR.left, gR.rght, gR.apex] := by
    show RecursRender (initState ps) (((initState ps).poolSize + 1) + 1) 1 gR = _
    simp [RecursRender, hleaf1]
  have hGI : (GenerateIndices (initState ps) gL gR).length = 6 := by
    rw [GenerateIndices, hr0, hr1]
    rfl
  refine ⟨hdec, hfst, hsnd, ?_, ?_⟩
  · rw [hfst]
    exact hGI
  · rw [hfst, GetTriCount, hGI]

/-- Witness for C7: the uniform-height-5 heightmap tessellated over a
2-by-2 tile with pool capacity 4 yields the reset state, 6 index entries
and a triangle count of 2. -/
theorem flat_heightmap_two_root_leaves_witness :
    (∀ (g : TriGeom) (d : Nat),
      wantSplit demoParams 10 (0, 0) (variance flatHeight d g) (midpt g) = false)
    ∧ (Tessellate demoParams 10 (0, 0) flatHeight gLDemo gRDemo 2 4).1 = initState 4
    ∧ (Tessellate demoParams 10 (0, 0) flatHeight gLDemo gRDemo 2 4).2 = true
    ∧ (GenerateIndices (Tessellate demoParams 10 (0, 0) flatHeight gLDemo gRDemo 2 4).1
        gLDemo gRDemo).length = 6
    ∧ GetTriCount (GenerateIndices
        (Tessellate demoParams 10 (0, 0) flatHeight gLDemo gRDemo 2 4).1 gLDemo gRDemo) = 2 :=
  flat_heightmap_two_root_leaves 5 flatHeight demoParams 10 (0, 0) gLDemo gRDemo 2 4
    (fun _ => rfl) (by decide)

/-- Witness for C8: over `branchDemo` (root 0 a Branch with leaf children 2
and 3), leaf emission, branch recursion and the triangle count all check
out concretely. -/
theorem recursRender_three_per_leaf_witness :
    ((branchDemo.node 2).LeftChild = none
      ∧ RecursRender branchDemo (0 + 1) 2 demoGeom =
        [demoGeom.left, demoGeom.rght, demoGeom.apex])
    ∧ ((branchDemo.node 0).LeftChild = some 2 ∧ (branchDemo.node 0).RightChild = some 3
      ∧ RecursRender branchDemo (1 + 1) 0 demoGeom =
        RecursRender branchDemo 1 2 (childL demoGeom) ++
          RecursRender branchDemo 1 3 (childR demoGeom))
    ∧ GetTriCount (RecursRender branchDemo 5 0 demoGeom) = countLeaves branchDemo 5 0 :=
  ⟨⟨by decide, recursRender_three_per_leaf.1 branchDemo 0 2 demoGeom (by decide)⟩,
    ⟨by decide, by decide,
      recursRender_three_per_leaf.2.1 branchDemo 1 0 demoGeom 2 3 (by decide) (by decide)⟩,
    recursRender_three_per_leaf.2.2.2.1 branchDemo 5 0 demoGeom⟩

end Roam
